import Mathlib

/-!
SSB High Speed Modem: `hsmodem/liquid_if.cpp`

A shallow embedding of the DSP glue code of the modem (modulator, demodulator,
level meter and telemetry packaging) together with theorems about it.

Conventions of the embedding.

* The C type `float` is a type parameter `F` with its operations collected in
  `FloatOps F`; `exactFloat` interprets them over `ℚ` (exact arithmetic) so that
  the definitions can be evaluated.
* The objects of the external DSP library are values of a type parameter `D`;
  the library itself is a record `Liquid F D` of pure functions.  A handle is an
  `Option D`, `none` being the `NULL` pointer.
* C arrays are functions `Nat → α`; a store outside the declared bounds and a
  library call on a `NULL` handle are reported as a `Fault` on the receive
  path and as the status `crashed` on the transmit path.
* Calls to collaborators outside the file are recorded as `Event`s, with the
  value they returned where the code depends on it.
-/

namespace HSModem

/-! ## Machine integers -/

/-- Conversion to `uint8_t`. -/
def toU8 (x : Int) : Nat := (x % 256).toNat

/-- Conversion to `unsigned int` (32 bit). -/
def toU32 (x : Int) : Nat := (x % 4294967296).toNat

/-- Conversion to `int` (32 bit two's complement). -/
def toS32 (x : Int) : Int := (x + 2147483648) % 4294967296 - 2147483648

/-- Conversion to `int16_t` (16 bit two's complement). -/
def toS16 (x : Int) : Int := (x + 32768) % 65536 - 32768

/-! ## Floating point -/

/-- The operations on `float` that the code uses.  `lit q` is the `float`
denoted by the decimal literal `q`, `toInt`, `toUInt8` and `toInt16` are the C
conversions `(int)`, `(uint8_t)` and `(int16_t)`. -/
structure FloatOps (F : Type) where
  zero : F
  one : F
  add : F → F → F
  sub : F → F → F
  mul : F → F → F
  div : F → F → F
  lt : F → F → Bool
  ofInt : Int → F
  lit : ℚ → F
  pi : F
  floorf : F → F
  toInt : F → Int
  toUInt8 : F → Nat
  toInt16 : F → Int

/-- Truncation toward zero, the rounding of the C conversions to integer. -/
def truncZ (q : ℚ) : Int := Int.tdiv q.num q.den

/-- Exact interpretation of the `float` operations over the rationals:
arithmetic without rounding, conversions to integer truncate toward zero and
then reduce to the width of the target type. -/
def exactFloat : FloatOps ℚ where
  zero := 0
  one := 1
  add := fun a b => a + b
  sub := fun a b => a - b
  mul := fun a b => a * b
  div := fun a b => a / b
  lt := fun a b => decide (a < b)
  ofInt := fun n => (n : ℚ)
  lit := fun q => q
  pi := 13176795 / 4194304
  floorf := fun q => ((Rat.floor q : Int) : ℚ)
  toInt := fun q => toS32 (truncZ q)
  toUInt8 := fun q => toU8 (truncZ q)
  toInt16 := fun q => toS16 (truncZ q)

/-- The type `liquid_float_complex`. -/
structure liquid_float_complex (F : Type) where
  real : F
  imag : F
  deriving DecidableEq

/-! ## The external DSP library -/

/-- The modulation schemes `getMod` selects from. -/
inductive modulation_scheme where
  | LIQUID_MODEM_BPSK
  | LIQUID_MODEM_QPSK
  | LIQUID_MODEM_APSK8
  deriving DecidableEq, Repr

/-- What `km_symtrack_execute` hands back: the recovered constellation point,
the number of symbols produced and the demodulated symbol index. -/
structure SymtrackOut (F : Type) where
  syms : liquid_float_complex F
  num_symbols_sync : Nat
  nsym_out : Nat
  deriving DecidableEq

/-- The functions of liquid-dsp and of the symbol tracker that the file calls.
Each takes the state of the object it works on and returns the new state where
the object is mutated. -/
structure Liquid (F D : Type) where
  modem_create : modulation_scheme → D
  modem_modulate : D → Nat → D × liquid_float_complex F
  nco_crcf_create : D
  nco_crcf_set_phase : D → F → D
  nco_crcf_set_frequency : D → F → D
  nco_crcf_step : D → D
  nco_crcf_mix_up : D → liquid_float_complex F → liquid_float_complex F
  nco_crcf_mix_down : D → liquid_float_complex F → liquid_float_complex F
  liquid_firdes_prototype : Nat → Nat → F → F → List F
  firinterp_crcf_create : Nat → List F → Nat → D
  firinterp_crcf_execute : D → liquid_float_complex F → D × List (liquid_float_complex F)
  firdecim_crcf_execute : D → List (liquid_float_complex F) → D × liquid_float_complex F
  msresamp_crcf_execute : D → liquid_float_complex F → D × Option (liquid_float_complex F)
  km_symtrack_execute : D → liquid_float_complex F → D × SymtrackOut F

/-- The three byte-to-symbol converters, which live outside the file.  Each
takes the bytes `d`, the array `syms` and `len`, and returns the array `syms`
as it is after the call. -/
structure Mapper where
  convertBytesToSyms_BPSK : List Nat → (Nat → Nat) → Int → (Nat → Nat)
  convertBytesToSyms_QPSK : List Nat → (Nat → Nat) → Int → (Nat → Nat)
  convertBytesToSyms_8PSK : List Nat → (Nat → Nat) → Int → (Nat → Nat)

/-! ## Program state -/

/-- The diagnostics the file prints. -/
inductive Msg where
  | init_TX_modulator
  | h_too_small (need : Nat)
  | DSP_created
  | syms_too_small
  | y_too_small (need : Nat)
  | FFTdata_txpl_too_small
  | symtrack_output_symbols (n : Nat)
  deriving DecidableEq, Repr

/-- Calls to the collaborators of the file. -/
inductive Event (F : Type) where
  | printf (m : Msg)
  | io_pb_fifo_freespace (returned : Int)
  | sleep_ms (ms : Int)
  | io_pb_write_fifo (x : F)
  | io_ls_write_fifo (x : F)
  | make_waterfall (f : F)
  | sendUDP (payload : List Nat)
  | nco_crcf_mix_down (returned : liquid_float_complex F)
  | firdecim_crcf_execute (block : List (liquid_float_complex F))
  | km_symtrack_execute (y : liquid_float_complex F) (returned : SymtrackOut F)
  | measure_speed_syms (n : Int)
  | GRdata_rxdata (symb : Nat)
  deriving DecidableEq

/-- Undefined behaviour the embedding detects. -/
inductive Fault where
  | nullHandle
  | outOfBounds (index : Nat)
  deriving DecidableEq, Repr

/-- The global and function-static variables of the file. -/
structure Globals (F D : Type) where
  mod : Option D
  upnco : Option D
  TX_interpolator : Option D
  k_SampPerSymb : Nat
  m_filterDelay_Symbols : Nat
  beta_excessBW : F
  tau_FracSymbOffset : F
  dnnco : Option D
  symtrack : Option D
  decim : Option D
  adecim : Option D
  km_symtrack : D
  maxLevel : Nat
  maxTXLevel : Nat
  getMax_farr : Nat → F
  getMax_idx : Nat
  getMax_f : Bool
  ccol : Nat → liquid_float_complex F
  ccol_idx : Nat
  const_re : Nat → Int
  const_im : Nat → Int
  const_idx : Nat

/-- The configuration variables declared in `hsmodem.h` that the file reads. -/
structure Config (F : Type) where
  bitsPerSymbol : Int
  txinterpolfactor : Int
  caprate : Int
  physcaprate : Int
  rxPreInterpolfactor : Int
  softwareCAPvolume : F
  VoiceAudioMode : Int
  VOICEMODE_LISTENAUDIOIN : Int

/-- The value of the globals when the program starts. -/
def initialGlobals {F D : Type} (ops : FloatOps F) (d0 : D) : Globals F D where
  mod := none
  upnco := none
  TX_interpolator := none
  k_SampPerSymb := 20
  m_filterDelay_Symbols := 15
  beta_excessBW := ops.lit (1 / 5)
  tau_FracSymbOffset := ops.lit (-1 / 5)
  dnnco := none
  symtrack := none
  decim := none
  adecim := none
  km_symtrack := d0
  maxLevel := 0
  maxTXLevel := 0
  getMax_farr := fun _ => ops.zero
  getMax_idx := 0
  getMax_f := true
  ccol := fun _ => ⟨ops.zero, ops.zero⟩
  ccol_idx := 0
  const_re := fun _ => 0
  const_im := fun _ => 0
  const_idx := 0

/-- Store into a C array. -/
def arrSet {α : Type} (a : Nat → α) (i : Nat) (v : α) : Nat → α :=
  fun j => if j = i then v else a j

/-! ## Modulator -/

section Code

variable {F D : Type} (ops : FloatOps F) (lib : Liquid F D)

/-- Source function `getMod`. -/
def getMod (bitsPerSymbol : Int) : modulation_scheme :=
  if bitsPerSymbol = 1 then modulation_scheme.LIQUID_MODEM_BPSK
  else if bitsPerSymbol = 2 then modulation_scheme.LIQUID_MODEM_QPSK
  else if bitsPerSymbol = 3 then modulation_scheme.LIQUID_MODEM_APSK8
  else modulation_scheme.LIQUID_MODEM_QPSK

/-- Source function `close_modulator`. -/
def close_modulator (g : Globals F D) : Globals F D :=
  { g with mod := none, upnco := none, TX_interpolator := none }

/-- Source function `close_demodulator`. -/
def close_demodulator (g : Globals F D) : Globals F D :=
  { g with symtrack := none, decim := none, adecim := none }

/-- Source function `close_dsp`. -/
def close_dsp (g : Globals F D) : Globals F D :=
  close_demodulator (close_modulator g)

/-- The loop `while (tau_FracSymbOffset < 0) tau_FracSymbOffset += 1.0f` of
`init_modulator`, run for at most `fuel + 1` tests of the condition. -/
def ensurePositiveTau : Nat → F → Option F
  | 0, tau => if ops.lt tau ops.zero then none else some tau
  | fuel + 1, tau =>
    if ops.lt tau ops.zero then ensurePositiveTau fuel (ops.add tau ops.one) else some tau

/-- Source function `init_modulator`.  The result is `none` when the loop on
`tau_FracSymbOffset` has not finished within `fuel`. -/
def init_modulator (fuel : Nat) (cfg : Config F) (g0 : Globals F D) :
    Option (Globals F D × List (Event F)) :=
  let g1 := close_dsp g0
  let g2 := { g1 with k_SampPerSymb := toU32 cfg.txinterpolfactor }
  let g3 := { g2 with mod := some (lib.modem_create (getMod cfg.bitsPerSymbol)) }
  let RADIANS_PER_SAMPLE :=
    ops.div (ops.mul (ops.mul (ops.lit 2) ops.pi) (ops.ofInt 1500)) (ops.ofInt cfg.caprate)
  let g4 := { g3 with
    upnco := some (lib.nco_crcf_set_frequency
      (lib.nco_crcf_set_phase lib.nco_crcf_create (ops.lit 0)) RADIANS_PER_SAMPLE) }
  match ensurePositiveTau ops fuel g4.tau_FracSymbOffset with
  | none => none
  | some tau =>
    let g5 := { g4 with tau_FracSymbOffset := tau }
    let g := ops.mul (ops.ofInt g5.k_SampPerSymb) g5.tau_FracSymbOffset
    let ds := ops.toInt (ops.floorf g)
    let dt := ops.sub g (ops.ofInt ds)
    let dt := if ops.lt (ops.lit (1 / 2)) dt then ops.sub dt (ops.lit 1) else dt
    let h_len_NumFilterCoeefs := (2 * g5.k_SampPerSymb * g5.m_filterDelay_Symbols + 1) % 4294967296
    if h_len_NumFilterCoeefs ≥ 4000 then
      some (g5, [Event.printf Msg.init_TX_modulator,
                 Event.printf (Msg.h_too_small h_len_NumFilterCoeefs)])
    else
      let h := lib.liquid_firdes_prototype g5.k_SampPerSymb g5.m_filterDelay_Symbols
        g5.beta_excessBW dt
      let interp := lib.firinterp_crcf_create g5.k_SampPerSymb h h_len_NumFilterCoeefs
      some ({ g5 with TX_interpolator := some interp },
            [Event.printf Msg.init_TX_modulator, Event.printf Msg.DSP_created])

/-- The Gray step of `sendToModulator` (line 167) on a `uint8_t` symbol. -/
def txGray (bitsPerSymbol : Int) (s : Nat) : Nat :=
  if bitsPerSymbol = 2 then (s ^^^ (s >>> 1)) % 256 else s

/-- How a call of the transmit path ended: it returned, it is still waiting in
the free-space loop after all known answers of the playback buffer were used,
or it dereferenced a `NULL` handle. -/
inductive Status where
  | returned
  | blocked
  | crashed
  deriving DecidableEq, Repr

/-- The loop `while(1)` of `modulator` (lines 203-209).  The argument lists the
values `io_pb_fifo_freespace` is going to return; the result is the events of
the loop and, when the loop was left, the answers that remain. -/
def waitForSpace : List Int → List (Event F) × Option (List Int)
  | [] => ([], none)
  | fs :: rest =>
    if fs > 20000 then ([Event.io_pb_fifo_freespace fs], some rest)
    else
      let r := waitForSpace rest
      (Event.io_pb_fifo_freespace fs :: Event.sleep_ms 10 :: r.1, r.2)

/-- The loop over the interpolated samples of `modulator` (lines 192-212):
`n` iterations are left, `i` is the loop counter, `nco` the state of `upnco`. -/
def modulator_loop (y : List (liquid_float_complex F)) :
    Nat → Nat → D → List Int → D × List (Event F) × Option (List Int)
  | 0, _, nco, polls => (nco, [], some polls)
  | n + 1, i, nco, polls =>
    let nco1 := lib.nco_crcf_step nco
    let c := lib.nco_crcf_mix_up nco1 (y.getD i ⟨ops.zero, ops.zero⟩)
    let usb := ops.add c.real c.imag
    match waitForSpace polls with
    | (ev, none) => (nco1, ev, none)
    | (ev, some rest) =>
      let r := modulator_loop y n (i + 1) nco1 rest
      (r.1, ev ++ Event.io_pb_write_fifo (ops.mul usb (ops.lit (1 / 5))) :: r.2.1, r.2.2)

/-- The outcome of one call of `modulator`. -/
structure Run (F D : Type) where
  g : Globals F D
  events : List (Event F)
  polls : List Int
  status : Status

/-- Source function `modulator`. -/
def modulator (g : Globals F D) (sym_in : Nat) (polls : List Int) : Run F D :=
  match g.mod with
  | none => ⟨g, [], polls, Status.crashed⟩
  | some m =>
    let r := lib.modem_modulate m sym_in
    let g1 := { g with mod := some r.1 }
    if g1.k_SampPerSymb ≥ 400 then
      ⟨g1, [Event.printf (Msg.y_too_small g1.k_SampPerSymb)], polls, Status.returned⟩
    else
      match g1.TX_interpolator with
      | none => ⟨g1, [], polls, Status.crashed⟩
      | some it =>
        let e := lib.firinterp_crcf_execute it r.2
        let g2 := { g1 with TX_interpolator := some e.1 }
        match g2.upnco with
        | none =>
          if g2.k_SampPerSymb = 0 then ⟨g2, [], polls, Status.returned⟩
          else ⟨g2, [], polls, Status.crashed⟩
        | some nco =>
          let l := modulator_loop ops lib e.2 g2.k_SampPerSymb 0 nco polls
          match l.2.2 with
          | none => ⟨{ g2 with upnco := some l.1 }, l.2.1, [], Status.blocked⟩
          | some rest => ⟨{ g2 with upnco := some l.1 }, l.2.1, rest, Status.returned⟩

/-- The outcome of one call of `sendToModulator`: `calls` lists the calls of
`modulator` in the order they were made, each with its argument and the events
of that call; `events` are the events of `sendToModulator` itself. -/
structure SendRun (F D : Type) where
  g : Globals F D
  calls : List (Nat × List (Event F))
  events : List (Event F)
  polls : List Int
  status : Status

/-- The loop over the symbols of `sendToModulator` (lines 163-170): `n`
iterations are left, `i` is the loop counter. -/
def sendToModulator_loop (bitsPerSymbol : Int) (syms : Nat → Nat) :
    Nat → Nat → Globals F D → List Int → SendRun F D
  | 0, _, g, polls => ⟨g, [], [], polls, Status.returned⟩
  | n + 1, i, g, polls =>
    let s := txGray bitsPerSymbol (syms i % 256)
    let r := modulator ops lib g s polls
    match r.status with
    | Status.returned =>
      let rest := sendToModulator_loop bitsPerSymbol syms n (i + 1) r.g r.polls
      ⟨rest.g, (s, r.events) :: rest.calls, [], rest.polls, rest.status⟩
    | st => ⟨r.g, [(s, r.events)], [], r.polls, st⟩

/-- The array `syms` after the conversion of `sendToModulator` (lines
156-161); `syms0` is its content before. -/
def sendToModulator_syms (mp : Mapper) (bitsPerSymbol : Int) (d : List Nat) (len : Int)
    (syms0 : Nat → Nat) : Nat → Nat :=
  if bitsPerSymbol = 1 then mp.convertBytesToSyms_BPSK d syms0 len
  else if bitsPerSymbol = 2 then mp.convertBytesToSyms_QPSK d syms0 len
  else if bitsPerSymbol = 3 then mp.convertBytesToSyms_8PSK d syms0 len
  else syms0

/-- Source function `sendToModulator`; `syms0` is the content of the local
array `syms` before it is filled. -/
def sendToModulator (mp : Mapper) (cfg : Config F) (g : Globals F D) (d : List Nat)
    (len : Int) (syms0 : Nat → Nat) (polls : List Int) : SendRun F D :=
  match g.upnco with
  | none => ⟨g, [], [], polls, Status.returned⟩
  | some _ =>
    if cfg.bitsPerSymbol = 0 then ⟨g, [], [], polls, Status.crashed⟩
    else
      let symanz := toS32 (Int.tdiv (toS32 (len * 8)) cfg.bitsPerSymbol)
      if symanz ≥ 10000 then
        ⟨g, [], [Event.printf Msg.syms_too_small], polls, Status.returned⟩
      else
        let syms := sendToModulator_syms mp cfg.bitsPerSymbol d len syms0
        sendToModulator_loop ops lib cfg.bitsPerSymbol syms symanz.toNat 0 g polls

/-! ## Level meter and status frame -/

/-- Window of the level meter, the macro `MCHECK`. -/
def MCHECK : Nat := 48000

/-- The search for the maximum in `getMax` (lines 340-344) over the entries
`0 .. n-1` of `farr`. -/
def getMax_scan (farr : Nat → F) : Nat → F
  | 0 => ops.zero
  | n + 1 =>
    let max := getMax_scan farr n
    if ops.lt max (farr n) then farr n else max

/-- Source function `getMax`. -/
def getMax (fv : F) (g : Globals F D) : Globals F D :=
  let g1 := if g.getMax_f then { g with getMax_f := false, getMax_farr := fun _ => ops.one } else g
  let g2 := { g1 with getMax_farr := arrSet g1.getMax_farr g1.getMax_idx fv,
                      getMax_idx := g1.getMax_idx + 1 }
  if g2.getMax_idx = MCHECK then
    { g2 with getMax_idx := 0,
              maxLevel := ops.toUInt8
                (ops.mul (getMax_scan ops g2.getMax_farr MCHECK) (ops.ofInt 100)) }
  else g2

/-- What the collaborators answer during one call of `demodulator`, and the
status variables of other modules read during the call. -/
structure Env (F : Type) where
  io_cap_read_fifo : Option F
  make_waterfall : Option (List Nat)
  io_pb_fifo_usedBlocks : Int
  io_cap_fifo_usedPercent : Int
  ann_running : Int
  rxlevel_deteced : Int
  rx_in_sync : Int

/-- The store `txpl[bidx++] = v` into a buffer of `cap` bytes, `bidx` being the
number of bytes stored so far. -/
def txpl_put (cap : Nat) (txpl : List Nat) (v : Nat) : Except Fault (List Nat) :=
  if txpl.length < cap then Except.ok (txpl ++ [v % 256])
  else Except.error (Fault.outOfBounds txpl.length)

/-- The loop over the spectrum bins of `make_FFTdata` (lines 312-316); a bin
is a `uint16_t`. -/
def make_FFTdata_bins (cap : Nat) : List Nat → List Nat → Except Fault (List Nat)
  | [], txpl => Except.ok txpl
  | x :: rest, txpl =>
    match txpl_put cap txpl ((x % 65536) >>> 8) with
    | Except.error e => Except.error e
    | Except.ok t1 =>
      match txpl_put cap t1 ((x % 65536) &&& 255) with
      | Except.error e => Except.error e
      | Except.ok t2 => make_FFTdata_bins cap rest t2

/-- The seven bytes `make_FFTdata` stores before the bins (lines 296-310). -/
def make_FFTdata_header (env : Env F) (g : Globals F D) : List Nat :=
  let us1 := env.io_pb_fifo_usedBlocks
  let us1 := if us1 > 255 ∨ env.ann_running = 1 then 255 else us1
  let us2 := env.io_cap_fifo_usedPercent
  let us2 := if us2 > 255 then 255 else us2
  [4, toU8 us1, toU8 us2, toU8 env.rxlevel_deteced, toU8 env.rx_in_sync,
   g.maxLevel % 256, g.maxTXLevel % 256]

/-- Source function `make_FFTdata`. -/
def make_FFTdata (env : Env F) (f : F) (g : Globals F D) : Except Fault (List (Event F)) :=
  match env.make_waterfall with
  | none => Except.ok [Event.make_waterfall f]
  | some fft =>
    if (fft.length : Int) > 10000 * 2 + 1 then
      Except.ok [Event.make_waterfall f, Event.printf Msg.FFTdata_txpl_too_small]
    else
      match make_FFTdata_bins 10000 fft (make_FFTdata_header env g) with
      | Except.error e => Except.error e
      | Except.ok txpl => Except.ok [Event.make_waterfall f, Event.sendUDP txpl]

/-! ## Demodulator -/

/-- Number of points of a constellation frame, the macro `CONSTPOINTS`. -/
def CONSTPOINTS : Nat := 400

/-- The Gray step of `demodulator` (lines 423-424) on the symbol index the
synchronizer returned. -/
def rxGray (bitsPerSymbol : Int) (nsym_out : Nat) : Nat :=
  let symb := nsym_out % 256
  if bitsPerSymbol = 2 then (symb ^^^ (symb >>> 1)) % 256 else symb

/-- The loop that fills a constellation frame (lines 437-443): `n` iterations
are left, `i` is the loop counter. -/
def constFrame_loop (const_re const_im : Nat → Int) : Nat → Nat → List Nat
  | 0, _ => []
  | n + 1, i =>
    toU8 (const_re i >>> (8 : Nat)) :: toU8 (const_re i) :: toU8 (const_im i >>> (8 : Nat))
      :: toU8 (const_im i) :: constFrame_loop const_re const_im n (i + 1)

/-- The payload `txpl` of a constellation frame (lines 433-443). -/
def constFrame (const_re const_im : Nat → Int) : List Nat :=
  5 :: constFrame_loop const_re const_im CONSTPOINTS 0

/-- Lines 429-448 of `demodulator`: store the recovered point, send a frame
when the buffer is full. -/
def demodulator_constellation (g : Globals F D) (syms : liquid_float_complex F) :
    Except Fault (Globals F D × List (Event F)) :=
  if g.const_idx ≥ CONSTPOINTS then Except.error (Fault.outOfBounds g.const_idx)
  else
    let g1 := { g with
      const_re := arrSet g.const_re g.const_idx (ops.toInt16 (ops.mul syms.real (ops.lit 15000))),
      const_im := arrSet g.const_im g.const_idx (ops.toInt16 (ops.mul syms.imag (ops.lit 15000))) }
    let g2 := { g1 with const_idx := g1.const_idx + 1 }
    if g2.const_idx ≥ CONSTPOINTS then
      Except.ok ({ g2 with const_idx := 0 }, [Event.sendUDP (constFrame g2.const_re g2.const_im)])
    else Except.ok (g2, [])

/-- Lines 417-449 of `demodulator`: what is done with the answer of the
synchronizer. -/
def demodulator_symbols (cfg : Config F) (g : Globals F D) (out : SymtrackOut F) :
    Except Fault (Globals F D × List (Event F)) :=
  let ev1 := if out.num_symbols_sync > 1
    then [Event.printf (Msg.symtrack_output_symbols out.num_symbols_sync)] else []
  if out.num_symbols_sync ≠ 0 then
    let symb := rxGray cfg.bitsPerSymbol out.nsym_out
    match demodulator_constellation ops g out.syms with
    | Except.error e => Except.error e
    | Except.ok r =>
      Except.ok (r.1, ev1 ++ [Event.measure_speed_syms 1, Event.GRdata_rxdata symb] ++ r.2)
  else Except.ok (g, ev1)

/-- Lines 403-451 of `demodulator`: collect the down-mixed sample `c`, and run
the pre-decimator and the synchronizer when the block is full. -/
def demodulator_decimate (cfg : Config F) (g : Globals F D) (c : liquid_float_complex F) :
    Except Fault (Globals F D × Int × List (Event F)) :=
  if g.ccol_idx ≥ 500 then Except.error (Fault.outOfBounds g.ccol_idx)
  else
    let g1 := { g with ccol := arrSet g.ccol g.ccol_idx c, ccol_idx := g.ccol_idx + 1 }
    if (g1.ccol_idx : Int) < cfg.rxPreInterpolfactor then Except.ok (g1, 1, [])
    else
      let g2 := { g1 with ccol_idx := 0 }
      match g2.decim with
      | none => Except.error Fault.nullHandle
      | some dc =>
        let block := (List.range 500).map g2.ccol
        let r := lib.firdecim_crcf_execute dc block
        let g3 := { g2 with decim := some r.1 }
        let t := lib.km_symtrack_execute g3.km_symtrack r.2
        let g4 := { g3 with km_symtrack := t.1 }
        match demodulator_symbols ops cfg g4 t.2 with
        | Except.error e => Except.error e
        | Except.ok q =>
          Except.ok (q.1, 1, Event.firdecim_crcf_execute block
            :: Event.km_symtrack_execute r.2 t.2 :: q.2)

/-- Lines 375-397 of `demodulator`: the optional resampling from 48000 to
44100 and the down-conversion.  The result is the new state and, unless the
resampler produced nothing, the down-mixed sample. -/
def demodulator_downmix (cfg : Config F) (g : Globals F D) (nco : D) (f : F) :
    Except Fault (Globals F D × Option (liquid_float_complex F)) :=
  let mix := fun (g1 : Globals F D) (f1 : F) =>
    let nco1 := lib.nco_crcf_step nco
    ({ g1 with dnnco := some nco1 }, some (lib.nco_crcf_mix_down nco1 ⟨f1, f1⟩))
  if cfg.caprate = 44100 ∧ cfg.physcaprate = 48000 then
    match g.adecim with
    | none => Except.error Fault.nullHandle
    | some a =>
      let r := lib.msresamp_crcf_execute a ⟨f, ops.ofInt 0⟩
      let g1 := { g with adecim := some r.1 }
      match r.2 with
      | none => Except.ok (g1, none)
      | some out => Except.ok (mix g1 out.real)
  else Except.ok (mix g f)

/-- Source function `demodulator`: the new state, the returned value and the
events of the call. -/
def demodulator (cfg : Config F) (env : Env F) (g : Globals F D) :
    Except Fault (Globals F D × Int × List (Event F)) :=
  match g.dnnco with
  | none => Except.ok (g, 0, [])
  | some nco =>
    match env.io_cap_read_fifo with
    | none => Except.ok (g, 0, [])
    | some f0 =>
      let ev1 := if cfg.VoiceAudioMode = cfg.VOICEMODE_LISTENAUDIOIN
        then [Event.io_ls_write_fifo f0] else []
      let f := ops.mul f0 cfg.softwareCAPvolume
      let g1 := getMax ops f g
      match make_FFTdata env (ops.mul f (ops.ofInt 100)) g1 with
      | Except.error e => Except.error e
      | Except.ok ev2 =>
        match demodulator_downmix ops lib cfg g1 nco f with
        | Except.error e => Except.error e
        | Except.ok (g2, none) => Except.ok (g2, 1, ev1 ++ ev2)
        | Except.ok (g2, some c) =>
          match demodulator_decimate ops lib cfg g2 c with
          | Except.error e => Except.error e
          | Except.ok q =>
            Except.ok (q.1, q.2.1, ev1 ++ ev2 ++ Event.nco_crcf_mix_down c :: q.2.2)

/-- One executed call of `demodulator`: the state before, the answers of the
collaborators, the returned value, the events and the state after. -/
structure CallRec (F D : Type) where
  pre : Globals F D
  env : Env F
  ret : Int
  events : List (Event F)
  post : Globals F D

/-- A sequence of calls of `demodulator`, one for each element of the list of
answers; the run ends at the first call whose behaviour is undefined. -/
def runDemodulator (cfg : Config F) : Globals F D → List (Env F) → List (CallRec F D)
  | _, [] => []
  | g, env :: rest =>
    match demodulator ops lib cfg env g with
    | Except.error _ => []
    | Except.ok q => ⟨g, env, q.2.1, q.2.2, q.1⟩ :: runDemodulator cfg q.1 rest

end Code

/-! ## Observations on event lists -/

section Observations

variable {F D : Type}

/-- The samples written to the playback buffer, in the order of the writes. -/
def writes (evs : List (Event F)) : List F :=
  evs.filterMap (fun e => match e with
    | Event.io_pb_write_fifo x => some x
    | _ => none)

/-- The number of answers of the playback buffer that are above the
threshold of the free-space loop. -/
def okPolls (polls : List Int) : Nat :=
  (polls.filter (fun fs => decide (fs > 20000))).length

/-- Every write to the playback buffer comes right after a free-space poll
that returned more than 20000. -/
def PollBeforeWrite (evs : List (Event F)) : Prop :=
  ∀ (i : Nat) (x : F), evs[i]? = some (Event.io_pb_write_fifo x) →
    0 < i ∧ ∃ fs : Int, fs > 20000 ∧ evs[i - 1]? = some (Event.io_pb_fifo_freespace fs)

/-- The down-mixed samples delivered to the accumulator. -/
def downmixed (evs : List (Event F)) : List (liquid_float_complex F) :=
  evs.filterMap (fun e => match e with
    | Event.nco_crcf_mix_down c => some c
    | _ => none)

/-- The blocks passed to the pre-decimator. -/
def decimBlocks (evs : List (Event F)) : List (List (liquid_float_complex F)) :=
  evs.filterMap (fun e => match e with
    | Event.firdecim_crcf_execute b => some b
    | _ => none)

/-- The answers of the symbol synchronizer, one for each time it was run. -/
def synchronizerRuns (evs : List (Event F)) : List (SymtrackOut F) :=
  evs.filterMap (fun e => match e with
    | Event.km_symtrack_execute _ out => some out
    | _ => none)

/-- The constellation points recovered, as they are stored in `const_re` and
`const_im`: the synchronizer reported a symbol, and the point is converted as
in lines 429-430. -/
def recovered (ops : FloatOps F) (evs : List (Event F)) : List (Int × Int) :=
  evs.filterMap (fun e => match e with
    | Event.km_symtrack_execute _ out =>
      if out.num_symbols_sync ≠ 0 then
        some (ops.toInt16 (ops.mul out.syms.real (ops.lit 15000)),
              ops.toInt16 (ops.mul out.syms.imag (ops.lit 15000)))
      else none
    | _ => none)

/-- The symbols delivered to the framing layer. -/
def delivered (evs : List (Event F)) : List Nat :=
  evs.filterMap (fun e => match e with
    | Event.GRdata_rxdata symb => some symb
    | _ => none)

/-- The payloads handed to the transport. -/
def sentFrames (evs : List (Event F)) : List (List Nat) :=
  evs.filterMap (fun e => match e with
    | Event.sendUDP payload => some payload
    | _ => none)

/-- The constellation frames handed to the transport: the payloads of type 5. -/
def constFrames (evs : List (Event F)) : List (List Nat) :=
  (sentFrames evs).filter (fun payload => decide (payload.head? = some 5))

/-- What one call of `demodulator` does to the accumulator of the
pre-decimator, in terms of the down-mixed samples `dm` the call delivered, the
blocks `blocks` it passed to the pre-decimator and the answers `syncs` of the
synchronizer: either nothing was delivered and the accumulator is untouched, or
one sample `c` was stored at `ccol_idx`; then either the block is not full yet,
or the index is reset and the whole array is passed on. -/
def AccStep (p : Int) (g g2 : Globals F D) (dm : List (liquid_float_complex F))
    (blocks : List (List (liquid_float_complex F))) (syncs : List (SymtrackOut F)) : Prop :=
  (dm = [] ∧ blocks = [] ∧ syncs = [] ∧ g2.ccol = g.ccol ∧ g2.ccol_idx = g.ccol_idx) ∨
  (∃ c, dm = [c] ∧ g.ccol_idx < 500 ∧ g2.ccol = arrSet g.ccol g.ccol_idx c ∧
    (((g.ccol_idx : Int) + 1 < p ∧ g2.ccol_idx = g.ccol_idx + 1 ∧ blocks = [] ∧ syncs = []) ∨
     (¬ ((g.ccol_idx : Int) + 1 < p) ∧ g2.ccol_idx = 0 ∧
        blocks = [(List.range 500).map g2.ccol] ∧ syncs.length = 1)))

/-- What one call of `demodulator` does to the constellation buffer, in terms
of the points `pts` it recovered and the constellation frames `frames` it
sent: either no point was recovered and the buffer is untouched, or one point
was stored at `const_idx`; then either the buffer is not full yet, or the
counter is reset and one frame with the content of the buffer is sent. -/
def ConstStep (g g2 : Globals F D) (pts : List (Int × Int)) (frames : List (List Nat)) : Prop :=
  (pts = [] ∧ frames = [] ∧ g2.const_re = g.const_re ∧ g2.const_im = g.const_im ∧
    g2.const_idx = g.const_idx) ∨
  (∃ pt, pts = [pt] ∧ g.const_idx < 400 ∧
    g2.const_re = arrSet g.const_re g.const_idx pt.1 ∧
    g2.const_im = arrSet g.const_im g.const_idx pt.2 ∧
    ((g.const_idx + 1 < 400 ∧ g2.const_idx = g.const_idx + 1 ∧ frames = []) ∨
     (g.const_idx + 1 = 400 ∧ g2.const_idx = 0 ∧
        frames = [constFrame g2.const_re g2.const_im])))

/-- The accumulator of the pre-decimator agrees with the down-mixed samples
`cs` delivered so far: its index is the number of samples modulo `p`, and it
holds the samples that arrived since the last full block, in arrival order. -/
def InvAcc (p : Nat) (g : Globals F D) (cs : List (liquid_float_complex F)) : Prop :=
  g.ccol_idx = cs.length % p ∧
  ∀ i, i < g.ccol_idx → cs[cs.length - g.ccol_idx + i]? = some (g.ccol i)

/-- The statement of the pre-decimation claim for one call: `cs` are the
down-mixed samples delivered up to and including the call, `pre` and `post`
the state before and after it, `evs` its events. -/
def AccClaim (p : Nat) (cs : List (liquid_float_complex F)) (pre post : Globals F D)
    (evs : List (Event F)) : Prop :=
  (downmixed evs).length ≤ 1 ∧
  (decimBlocks evs ≠ [] ↔ (downmixed evs ≠ [] ∧ p ∣ cs.length)) ∧
  (synchronizerRuns evs ≠ [] ↔ (downmixed evs ≠ [] ∧ p ∣ cs.length)) ∧
  (downmixed evs ≠ [] → p ∣ cs.length →
    ∃ block, decimBlocks evs = [block] ∧ block.take p = cs.drop (cs.length - p) ∧
      post.ccol_idx = 0) ∧
  (downmixed evs ≠ [] → ¬ p ∣ cs.length → 1 ≤ post.ccol_idx ∧ post.ccol_idx ≤ p - 1) ∧
  (downmixed evs = [] → post.ccol_idx = pre.ccol_idx)

/-- High byte of the 16 bit two's complement representation of `v`. -/
def hiByte (v : Int) : Nat := ((v % 65536) / 256).toNat

/-- Low byte of the 16 bit two's complement representation of `v`. -/
def loByte (v : Int) : Nat := ((v % 65536) % 256).toNat

/-- The constellation buffer agrees with the points `pts` recovered so far:
its counter is the number of points modulo 400, and it holds the points
recovered since the last frame, in the order of recovery. -/
def InvConst (g : Globals F D) (pts : List (Int × Int)) : Prop :=
  g.const_idx = pts.length % 400 ∧
  ∀ i, i < g.const_idx → pts[pts.length - g.const_idx + i]? = some (g.const_re i, g.const_im i)

/-- The statement of the constellation-frame claim for one call: `pts` are the
points recovered up to and including the call, `post` the state after it and
`evs` its events. -/
def ConstClaim (ops : FloatOps F) (pts : List (Int × Int)) (post : Globals F D)
    (evs : List (Event F)) : Prop :=
  (recovered ops evs).length ≤ 1 ∧
  (constFrames evs ≠ [] ↔ (recovered ops evs ≠ [] ∧ 400 ∣ pts.length)) ∧
  (recovered ops evs ≠ [] → 400 ∣ pts.length →
    ∃ frame, constFrames evs = [frame] ∧ frame.length = 1601 ∧ frame[0]? = some 5 ∧
      (∀ i, i < 400 → ∃ pt, pts[pts.length - 400 + i]? = some pt ∧
        frame[1 + 4 * i]? = some (hiByte pt.1) ∧ frame[2 + 4 * i]? = some (loByte pt.1) ∧
        frame[3 + 4 * i]? = some (hiByte pt.2) ∧ frame[4 + 4 * i]? = some (loByte pt.2)) ∧
      post.const_idx = 0)

/-- The bytes of the bins of a status frame: for each 16 bit bin its high byte
and its low byte. -/
def binBytes : List Nat → List Nat
  | [] => []
  | x :: rest => (x % 65536) / 256 :: x % 256 :: binBytes rest

/-- The samples the loop of `modulator` is to write in `n` iterations that
start with the loop counter `i` and the oscillator state `nco`. -/
def modulator_loop_samples (ops : FloatOps F) (lib : Liquid F D)
    (y : List (liquid_float_complex F)) : Nat → Nat → D → List F
  | 0, _, _ => []
  | n + 1, i, nco =>
    let c := lib.nco_crcf_mix_up (lib.nco_crcf_step nco) (y.getD i ⟨ops.zero, ops.zero⟩)
    ops.mul (ops.add c.real c.imag) (ops.lit (1 / 5))
      :: modulator_loop_samples ops lib y n (i + 1) (lib.nco_crcf_step nco)

/-- The `k` samples a call of `modulator` is to write, in the order of the
interpolated samples `y[0] .. y[k-1]`: sample `j` is `y[j]` mixed up with the
oscillator after `j + 1` steps, its two components added and scaled by `0.2`. -/
def modulator_samples (ops : FloatOps F) (lib : Liquid F D) (g : Globals F D)
    (sym_in : Nat) : List F :=
  match g.mod, g.TX_interpolator, g.upnco with
  | some m, some it, some nco =>
    let y := (lib.firinterp_crcf_execute it (lib.modem_modulate m sym_in).2).2
    (List.range g.k_SampPerSymb).map (fun j =>
      let c := lib.nco_crcf_mix_up (lib.nco_crcf_step^[j + 1] nco) (y.getD j ⟨ops.zero, ops.zero⟩)
      ops.mul (ops.add c.real c.imag) (ops.lit (1 / 5)))
  | _, _, _ => []

/-- The level meter fed with a list of samples, one call of `getMax` each. -/
def getMax_feed (ops : FloatOps F) (g : Globals F D) (vs : List F) : Globals F D :=
  vs.foldl (fun s v => getMax ops v s) g

end Observations

/-! ## Instances for evaluation -/

/-- A small instance of the library, used to run the model on concrete
inputs.  An object is a counter: the modem maps a symbol index to the point
with that real part, the oscillators count their steps and leave the samples
as they are, the interpolator repeats its input `k` times, the pre-decimator
returns the first sample of its block, the filter design returns no
coefficients, the resampler passes every sample, and
the synchronizer reports a symbol on every fourth sample it is given. -/
def exampleLib : Liquid ℚ Nat where
  modem_create := fun _ => 0
  modem_modulate := fun d s => (d, ⟨(s : ℚ), 0⟩)
  nco_crcf_create := 0
  nco_crcf_set_phase := fun d _ => d
  nco_crcf_set_frequency := fun d _ => d
  nco_crcf_step := fun d => d + 1
  nco_crcf_mix_up := fun _ x => x
  nco_crcf_mix_down := fun _ x => x
  liquid_firdes_prototype := fun _ _ _ _ => []
  firinterp_crcf_create := fun k _ _ => k
  firinterp_crcf_execute := fun d x => (d, List.replicate d x)
  firdecim_crcf_execute := fun d block => (d, block.headD ⟨0, 0⟩)
  msresamp_crcf_execute := fun d x => (d, some x)
  km_symtrack_execute := fun d y =>
    (d + 1, ⟨y, if (d + 1) % 4 = 0 then 1 else 0, (truncZ y.real).toNat⟩)

/-- Bit `j` of a byte buffer, the most significant bit of a byte first. -/
def bitAt (d : List Nat) (j : Nat) : Nat := (d.getD (j / 8) 0 >>> (7 - j % 8)) % 2

/-- An instance of the byte-to-symbol converters, used to run the model on
concrete inputs: symbol `i` is the `i`-th group of bits of the buffer.  The
converters of the repository may assign the symbols differently. -/
def exampleMapper : Mapper where
  convertBytesToSyms_BPSK := fun d syms len i =>
    if i < len.toNat * 8 then bitAt d i else syms i
  convertBytesToSyms_QPSK := fun d syms len i =>
    if i < len.toNat * 4 then 2 * bitAt d (2 * i) + bitAt d (2 * i + 1) else syms i
  convertBytesToSyms_8PSK := fun d syms len i =>
    if i < len.toNat * 8 / 3 then
      4 * bitAt d (3 * i) + 2 * bitAt d (3 * i + 1) + bitAt d (3 * i + 2)
    else syms i

/-- A configuration for evaluation: `bitsPerSymbol`, the TX interpolation
factor and the RX pre-decimation factor are given, the capture rate is 44100
on both sides, the software gain is 1 and the listen mode is off. -/
def exampleConfig (bitsPerSymbol txinterpolfactor rxPreInterpolfactor : Int) : Config ℚ where
  bitsPerSymbol := bitsPerSymbol
  txinterpolfactor := txinterpolfactor
  caprate := 44100
  physcaprate := 44100
  rxPreInterpolfactor := rxPreInterpolfactor
  softwareCAPvolume := 1
  VoiceAudioMode := 0
  VOICEMODE_LISTENAUDIOIN := 1

/-- An open pipeline for evaluation: the initial globals with all handles of
both paths set and `k_SampPerSymb = k`. -/
def exampleOpen (k : Nat) : Globals ℚ Nat :=
  { initialGlobals exactFloat 0 with
    mod := some 0, upnco := some 0, TX_interpolator := some k, k_SampPerSymb := k,
    dnnco := some 0, decim := some 0, adecim := some 0 }

/-- The answers of the collaborators for a call of `demodulator` that finds
the capture sample `f`, no spectrum being ready. -/
def exampleEnv (f : Option ℚ) : Env ℚ where
  io_cap_read_fifo := f
  make_waterfall := none
  io_pb_fifo_usedBlocks := 0
  io_cap_fifo_usedPercent := 0
  ann_running := 0
  rxlevel_deteced := 0
  rx_in_sync := 0

/-- The answers of the collaborators for a call in which the spectrum
estimator returns the bins `fft`. -/
def exampleEnvFFT (fft : List Nat) : Env ℚ :=
  { exampleEnv none with make_waterfall := some fft }

/-- The instance `exampleLib` with a synchronizer that reports a symbol on
every sample it is given. -/
def exampleLibDense : Liquid ℚ Nat :=
  { exampleLib with
    km_symtrack_execute := fun d y => (d + 1, ⟨y, 1, (truncZ y.real).toNat⟩) }

/-- The answers of the collaborators for `n` calls of `demodulator`: call `i`
finds the capture sample `(i - 200) / 15000`, which `exampleLibDense` turns into
the constellation point with both stored values `i - 200`. -/
def exampleRamp (n : Nat) : List (Env ℚ) :=
  (List.range n).map (fun i => exampleEnv (some (((i : Int) - 200 : Int) / 15000)))

/-- The constellation frame expected for the points `(i - 200, i - 200)`,
`i = 0 .. 399`: the type byte 5 and, for each point, the two bytes of the real
value and the two bytes of the imaginary value, high byte first. -/
def exampleRampFrame : List Nat :=
  5 :: ((List.range 400).map (fun i =>
    [hiByte ((i : Int) - 200), loByte ((i : Int) - 200),
     hiByte ((i : Int) - 200), loByte ((i : Int) - 200)])).flatten

/-! ## Theorems -/

section StatusFrame

variable {F D : Type}

/-- Claim C3.  For `bitsPerSymbol` 1, 2 or 3 and a symbol `s < 2 ^ bitsPerSymbol`, the
Gray step of `demodulator` applied to the result of the Gray step of
`sendToModulator` gives `s` back. -/
theorem C3_gray_roundtrip (b : Int) (hb : b = 1 ∨ b = 2 ∨ b = 3) (s : Nat)
    (hs : s < 2 ^ b.toNat) : rxGray b (txGray b s) = s := by
  rcases hb with rfl | rfl | rfl
  · simp [rxGray, txGray] at *
    omega
  · have h4 : s < 4 := by simpa using hs
    interval_cases s <;> decide
  · have h8 : s < 8 := by simpa using hs
    simp [rxGray, txGray]
    omega

/-- Witness of C3: the symbol 3 with two bits per symbol. -/
theorem C3_gray_roundtrip_witness :
    ((2 : Int) = 1 ∨ (2 : Int) = 2 ∨ (2 : Int) = 3) ∧ 3 < 2 ^ (2 : Int).toNat ∧
      rxGray 2 (txGray 2 3) = 3 :=
  ⟨by decide, by decide, C3_gray_roundtrip 2 (by decide) 3 (by decide)⟩

theorem binBytes_length (bins : List Nat) : (binBytes bins).length = 2 * bins.length := by
  induction bins with
  | nil => rfl
  | cons x rest ih => simp [binBytes, ih]; omega

theorem make_FFTdata_bins_ok (cap : Nat) (bins : List Nat) :
    ∀ txpl : List Nat, txpl.length + 2 * bins.length ≤ cap →
      make_FFTdata_bins cap bins txpl = Except.ok (txpl ++ binBytes bins) := by
  induction bins with
  | nil => intro txpl _; simp [make_FFTdata_bins, binBytes]
  | cons x rest ih =>
    intro txpl h
    simp only [List.length_cons] at h
    have h1 : txpl.length < cap := by omega
    have h2 : (txpl ++ [(x % 65536) >>> 8 % 256]).length < cap := by simp; omega
    simp only [make_FFTdata_bins, txpl_put, h1, h2, if_true]
    rw [ih _ (by simp; omega)]
    have e1 : (x % 65536) >>> 8 % 256 = (x % 65536) / 256 := by
      rw [Nat.shiftRight_eq_div_pow]; omega
    have e2 : ((x % 65536) &&& 255) % 256 = x % 256 := by
      have : (x % 65536) &&& 255 = (x % 65536) % 256 := Nat.and_pow_two_sub_one_eq_mod _ 8
      omega
    simp [binBytes, e1, e2]

theorem make_FFTdata_bins_overflow (cap : Nat) (bins : List Nat) :
    ∀ txpl : List Nat, txpl.length ≤ cap → cap < txpl.length + 2 * bins.length →
      make_FFTdata_bins cap bins txpl = Except.error (Fault.outOfBounds cap) := by
  induction bins with
  | nil => intro txpl h1 h2; simp at h2; omega
  | cons x rest ih =>
    intro txpl hle h
    simp only [List.length_cons] at h
    by_cases h1 : txpl.length < cap
    · by_cases h2 : txpl.length + 1 < cap
      · have h2' : (txpl ++ [(x % 65536) >>> 8 % 256]).length < cap := by simpa using h2
        simp only [make_FFTdata_bins, txpl_put, h1, h2', if_true]
        exact ih _ (by simp; omega) (by simp; omega)
      · have h2' : ¬ (txpl ++ [(x % 65536) >>> 8 % 256]).length < cap := by simpa using h2
        have e : (txpl ++ [(x % 65536) >>> 8 % 256]).length = cap := by simp; omega
        simp only [make_FFTdata_bins, txpl_put, h1, h2', if_true, if_false, e]
        simp
    · have e : txpl.length = cap := by omega
      simp only [make_FFTdata_bins, txpl_put, h1, if_false, e]
      simp

theorem binBytes_getElem (bins : List Nat) :
    ∀ i (hi : i < bins.length),
      (binBytes bins)[2 * i]? = some ((bins[i] % 65536) / 256) ∧
      (binBytes bins)[2 * i + 1]? = some (bins[i] % 256) := by
  induction bins with
  | nil => intro i hi; simp at hi
  | cons x rest ih =>
    intro i hi
    cases i with
    | zero => simp [binBytes]
    | succ i =>
      have hi2 : i < rest.length := by simpa using hi
      have e1 : 2 * (i + 1) = (2 * i) + 1 + 1 := by ring
      have e2 : 2 * (i + 1) + 1 = (2 * i + 1) + 1 + 1 := by ring
      have := ih i hi2
      simp only [binBytes, e1, e2, List.getElem?_cons_succ, List.getElem_cons_succ]
      exact this

theorem make_FFTdata_none (env : Env F) (f : F) (g : Globals F D)
    (h : env.make_waterfall = none) :
    make_FFTdata env f g = Except.ok [Event.make_waterfall f] := by
  simp [make_FFTdata, h]

theorem make_FFTdata_guard (env : Env F) (f : F) (g : Globals F D) (fft : List Nat)
    (h : env.make_waterfall = some fft) (hlen : 10000 * 2 + 1 < fft.length) :
    make_FFTdata env f g
      = Except.ok [Event.make_waterfall f, Event.printf Msg.FFTdata_txpl_too_small] := by
  have hg : ((fft.length : Int) > 10000 * 2 + 1) := by omega
  unfold make_FFTdata
  simp only [h]
  rw [if_pos hg]

theorem make_FFTdata_fits (env : Env F) (f : F) (g : Globals F D) (fft : List Nat)
    (h : env.make_waterfall = some fft) (hlen : 7 + 2 * fft.length ≤ 10000) :
    make_FFTdata env f g = Except.ok [Event.make_waterfall f,
      Event.sendUDP (make_FFTdata_header env g ++ binBytes fft)] := by
  have hg : ¬ ((fft.length : Int) > 10000 * 2 + 1) := by omega
  have hb := make_FFTdata_bins_ok 10000 fft (make_FFTdata_header env g)
    (by simp [make_FFTdata_header]; omega)
  unfold make_FFTdata
  simp only [h]
  rw [if_neg hg, hb]

theorem make_FFTdata_overflow (env : Env F) (f : F) (g : Globals F D) (fft : List Nat)
    (h : env.make_waterfall = some fft) (hguard : fft.length ≤ 10000 * 2 + 1)
    (hlen : 10000 < 7 + 2 * fft.length) :
    make_FFTdata env f g = Except.error (Fault.outOfBounds 10000) := by
  have hg : ¬ ((fft.length : Int) > 10000 * 2 + 1) := by omega
  have hb := make_FFTdata_bins_overflow 10000 fft (make_FFTdata_header env g)
    (by simp [make_FFTdata_header]) (by simp [make_FFTdata_header]; omega)
  unfold make_FFTdata
  simp only [h]
  rw [if_neg hg, hb]

theorem make_FFTdata_bins_head (cap : Nat) (bins : List Nat) :
    ∀ txpl t : List Nat, make_FFTdata_bins cap bins txpl = Except.ok t →
      txpl ≠ [] → t.head? = txpl.head? := by
  induction bins with
  | nil =>
    intro txpl t h _
    simp only [make_FFTdata_bins, Except.ok.injEq] at h
    rw [h]
  | cons x rest ih =>
    intro txpl t h hne
    by_cases h1 : txpl.length < cap
    · by_cases h2 : (txpl ++ [(x % 65536) >>> 8 % 256]).length < cap
      · simp only [make_FFTdata_bins, txpl_put, h1, h2, if_true] at h
        rw [ih _ t h (by simp)]
        cases txpl with
        | nil => exact absurd rfl hne
        | cons a l => simp
      · simp only [make_FFTdata_bins, txpl_put, h1, h2, if_true, if_false] at h
        cases h
    · simp only [make_FFTdata_bins, txpl_put, h1, if_false] at h
      cases h

theorem make_FFTdata_events (ops : FloatOps F) (env : Env F) (f : F) (g : Globals F D)
    (evs : List (Event F)) (h : make_FFTdata env f g = Except.ok evs) :
    downmixed evs = [] ∧ decimBlocks evs = [] ∧ synchronizerRuns evs = [] ∧
    recovered ops evs = [] ∧ constFrames evs = [] ∧ delivered evs = [] ∧ writes evs = [] := by
  unfold make_FFTdata at h
  split at h
  · cases h
    simp [downmixed, decimBlocks, synchronizerRuns, recovered, constFrames, delivered, writes,
      sentFrames]
  · split at h
    · cases h
      simp [downmixed, decimBlocks, synchronizerRuns, recovered, constFrames, delivered, writes,
        sentFrames]
    · split at h
      · cases h
      · rename_i txpl hb
        cases h
        have hh := make_FFTdata_bins_head 10000 _ _ txpl hb (by simp [make_FFTdata_header])
        have h4 : txpl.head? = some 4 := by rw [hh]; simp [make_FFTdata_header]
        simp [downmixed, decimBlocks, synchronizerRuns, recovered, constFrames, delivered,
          writes, sentFrames, h4]

/-- Claim C7, as amended.  `make_FFTdata` sends nothing when the estimator returns
no bins, and nothing when it returns more than `10000 * 2 + 1` bins.  When it
returns `N` bins and `7 + 2 * N ≤ 10000`, one payload is sent: it has
`7 + 2 * N` bytes, byte 0 is 4, byte 1 is the used-block count capped at 255
(255 when an announcement is running), byte 2 the used percentage capped at
255, bytes 3 to 6 the two flags, `maxLevel` and `maxTXLevel`, and bytes
`7 + 2 * i`, `8 + 2 * i` are the high and the low byte of bin `i`. -/
theorem C7_status_frame (env : Env F) (f : F) (g : Globals F D) :
    (env.make_waterfall = none → make_FFTdata env f g = Except.ok [Event.make_waterfall f]) ∧
    (∀ fft, env.make_waterfall = some fft → 10000 * 2 + 1 < fft.length →
      make_FFTdata env f g
        = Except.ok [Event.make_waterfall f, Event.printf Msg.FFTdata_txpl_too_small]) ∧
    (∀ fft, env.make_waterfall = some fft → 7 + 2 * fft.length ≤ 10000 →
      ∃ txpl, make_FFTdata env f g = Except.ok [Event.make_waterfall f, Event.sendUDP txpl] ∧
        txpl.length = 7 + 2 * fft.length ∧
        txpl[0]? = some 4 ∧
        txpl[1]? = some (toU8 (if env.ann_running = 1 then 255
                               else min env.io_pb_fifo_usedBlocks 255)) ∧
        txpl[2]? = some (toU8 (min env.io_cap_fifo_usedPercent 255)) ∧
        txpl[3]? = some (toU8 env.rxlevel_deteced) ∧
        txpl[4]? = some (toU8 env.rx_in_sync) ∧
        txpl[5]? = some (g.maxLevel % 256) ∧
        txpl[6]? = some (g.maxTXLevel % 256) ∧
        ∀ i (hi : i < fft.length),
          txpl[7 + 2 * i]? = some ((fft[i] % 65536) / 256) ∧
          txpl[8 + 2 * i]? = some (fft[i] % 256)) := by
  refine ⟨make_FFTdata_none env f g, make_FFTdata_guard env f g, ?_⟩
  intro fft h hlen
  refine ⟨make_FFTdata_header env g ++ binBytes fft, make_FFTdata_fits env f g fft h hlen,
    ?_, ?_, ?_, ?_, ?_, ?_, ?_, ?_, ?_⟩
  · simp [make_FFTdata_header, binBytes_length]; omega
  · simp [make_FFTdata_header]
  · by_cases ha : env.ann_running = 1
    · simp [make_FFTdata_header, ha]
    · by_cases hu : env.io_pb_fifo_usedBlocks > 255
      · simp [make_FFTdata_header, ha, hu, min_eq_right (le_of_lt hu)]
      · simp [make_FFTdata_header, ha, hu, min_eq_left (not_lt.mp hu)]
  · by_cases hu : env.io_cap_fifo_usedPercent > 255
    · simp [make_FFTdata_header, hu, min_eq_right (le_of_lt hu)]
    · simp [make_FFTdata_header, hu, min_eq_left (not_lt.mp hu)]
  · simp [make_FFTdata_header]
  · simp [make_FFTdata_header]
  · simp [make_FFTdata_header]
  · simp [make_FFTdata_header]
  · intro i hi
    have hl : (make_FFTdata_header env g).length = 7 := by simp [make_FFTdata_header]
    have := binBytes_getElem fft i hi
    constructor
    · rw [List.getElem?_append_right (by omega)]
      simpa [hl] using this.1
    · rw [List.getElem?_append_right (by omega)]
      have e : 8 + 2 * i - (make_FFTdata_header env g).length = 2 * i + 1 := by omega
      rw [e]
      exact this.2

/-- Witness of C7: two bins, `0x1234` and `5`. -/
theorem C7_status_frame_witness :
    (exampleEnvFFT [4660, 5]).make_waterfall = some [4660, 5] ∧ 7 + 2 * [4660, 5].length ≤ 10000 ∧
    ∃ txpl, make_FFTdata (exampleEnvFFT [4660, 5]) (0 : ℚ) (exampleOpen 20)
        = Except.ok [Event.make_waterfall 0, Event.sendUDP txpl] ∧
      txpl.length = 7 + 2 * [4660, 5].length ∧ txpl[0]? = some 4 ∧
      txpl[1]? = some (toU8 (if (exampleEnvFFT [4660, 5]).ann_running = 1 then 255
                             else min (exampleEnvFFT [4660, 5]).io_pb_fifo_usedBlocks 255)) ∧
      txpl[2]? = some (toU8 (min (exampleEnvFFT [4660, 5]).io_cap_fifo_usedPercent 255)) ∧
      txpl[3]? = some (toU8 (exampleEnvFFT [4660, 5]).rxlevel_deteced) ∧
      txpl[4]? = some (toU8 (exampleEnvFFT [4660, 5]).rx_in_sync) ∧
      txpl[5]? = some ((exampleOpen 20).maxLevel % 256) ∧
      txpl[6]? = some ((exampleOpen 20).maxTXLevel % 256) ∧
      ∀ i (hi : i < [4660, 5].length),
        txpl[7 + 2 * i]? = some (([4660, 5][i] % 65536) / 256) ∧
        txpl[8 + 2 * i]? = some ([4660, 5][i] % 256) :=
  ⟨rfl, by decide,
   (C7_status_frame (exampleEnvFFT [4660, 5]) (0 : ℚ) (exampleOpen 20)).2.2 [4660, 5] rfl
     (by decide)⟩

/-- Counterexample to C7 as stated: the estimator returns 20002 bins and no
payload is handed to the transport. -/
theorem C7_guard_drops_frame :
    (exampleEnvFFT (List.replicate 20002 0)).make_waterfall = some (List.replicate 20002 0) ∧
    make_FFTdata (exampleEnvFFT (List.replicate 20002 0)) (0 : ℚ) (exampleOpen 20)
      = Except.ok [Event.make_waterfall 0, Event.printf Msg.FFTdata_txpl_too_small] ∧
    sentFrames [Event.make_waterfall (0 : ℚ), Event.printf Msg.FFTdata_txpl_too_small] = [] :=
  ⟨rfl, make_FFTdata_guard _ _ _ _ rfl (by rw [List.length_replicate]; norm_num), rfl⟩

/-- Claim C10, evaluated at a failing input: 5000 bins pass the guard of
`make_FFTdata`, `7 + 2 * 5000` exceeds 10000, and the store at index 10000 is
outside `txpl`. -/
theorem C10_guard_admits_overflow :
    ¬ (((List.replicate 5000 0).length : Int) > 10000 * 2 + 1) ∧
    ¬ (7 + 2 * (List.replicate 5000 0).length ≤ 10000) ∧
    make_FFTdata (exampleEnvFFT (List.replicate 5000 0)) (0 : ℚ) (exampleOpen 20)
      = Except.error (Fault.outOfBounds 10000) :=
  ⟨by rw [List.length_replicate]; norm_num, by rw [List.length_replicate]; norm_num,
   make_FFTdata_overflow _ _ _ _ rfl (by rw [List.length_replicate]; norm_num)
     (by rw [List.length_replicate]; norm_num)⟩
end StatusFrame

section LevelMeter

variable {F D : Type} (ops : FloatOps F)

theorem MCHECK_pos : 0 < MCHECK := by decide

theorem getMax_scan_const (farr : Nat → F) (v : F) :
    ∀ n, 0 < n → (∀ i, i < n → farr i = v) →
      getMax_scan ops farr n = if ops.lt ops.zero v then v else ops.zero := by
  intro n
  induction n with
  | zero => intro h; omega
  | succ n ih =>
    intro _ hall
    have hv : farr n = v := hall n (Nat.lt_succ_self n)
    rcases Nat.eq_zero_or_pos n with h0 | hpos
    · subst h0
      simp [getMax_scan, hv]
    · have := ih hpos (fun i hi => hall i (Nat.lt_succ_of_lt hi))
      simp only [getMax_scan, this, hv]
      by_cases hlt : ops.lt ops.zero v = true
      · simp [hlt]
      · simp [hlt]

theorem getMax_below (fv : F) (g : Globals F D) (h : g.getMax_idx + 1 < MCHECK) :
    (getMax ops fv g).getMax_idx = g.getMax_idx + 1 ∧
    (getMax ops fv g).maxLevel = g.maxLevel ∧
    (getMax ops fv g).getMax_f = false ∧
    (getMax ops fv g).getMax_farr g.getMax_idx = fv ∧
    (g.getMax_f = false → ∀ i, i ≠ g.getMax_idx →
      (getMax ops fv g).getMax_farr i = g.getMax_farr i) := by
  have hne : g.getMax_idx + 1 ≠ MCHECK := by omega
  cases hf : g.getMax_f
  · simp [getMax, hf, hne, arrSet]
    intro i hi
    simp [hi]
  · simp [getMax, hf, hne, arrSet]

theorem getMax_wrap (fv : F) (g : Globals F D) (h : g.getMax_idx + 1 = MCHECK)
    (hf : 0 < g.getMax_idx → g.getMax_f = false)
    (hall : ∀ i, i < g.getMax_idx → g.getMax_farr i = fv) :
    (getMax ops fv g).getMax_idx = 0 ∧
    (getMax ops fv g).maxLevel = ops.toUInt8
      (ops.mul (if ops.lt ops.zero fv then fv else ops.zero) (ops.ofInt 100)) := by
  have hscan : ∀ farr : Nat → F, (∀ i, i < g.getMax_idx → farr i = fv) →
      getMax_scan ops (arrSet farr g.getMax_idx fv) MCHECK
        = if ops.lt ops.zero fv then fv else ops.zero := by
    intro farr hfarr
    apply getMax_scan_const ops _ fv MCHECK MCHECK_pos
    intro i hi
    by_cases e : i = g.getMax_idx
    · simp [arrSet, e]
    · simp only [arrSet, e, if_false]
      exact hfarr i (by omega)
  cases hfl : g.getMax_f
  · simp [getMax, hfl, h, hscan g.getMax_farr hall]
  · have h0 : g.getMax_idx = 0 := by
      by_contra hne
      have := hf (Nat.pos_of_ne_zero hne)
      simp [hfl] at this
    simp [getMax, hfl, h, hscan (fun _ => ops.one) (by intro i hi; omega)]

theorem getMax_feed_snoc (g : Globals F D) (vs : List F) (v : F) :
    getMax_feed ops g (vs ++ [v]) = getMax ops v (getMax_feed ops g vs) := by
  simp [getMax_feed, List.foldl_append]

theorem getMax_feed_quiet (rest : List F) :
    ∀ g : Globals F D, g.getMax_idx + rest.length < MCHECK →
      (getMax_feed ops g rest).maxLevel = g.maxLevel ∧
      (getMax_feed ops g rest).getMax_idx = g.getMax_idx + rest.length := by
  induction rest with
  | nil => intro g _; simp [getMax_feed]
  | cons x xs ih =>
    intro g h
    simp only [List.length_cons] at h
    have hb := getMax_below ops x g (by omega)
    have := ih (getMax ops x g) (by rw [hb.1]; omega)
    simp only [getMax_feed, List.foldl_cons] at this ⊢
    refine ⟨by rw [this.1, hb.2.1], ?_⟩
    rw [this.2, hb.1]
    simp only [List.length_cons]
    omega

theorem getMax_feed_window (g : Globals F D) (v : F) (h0 : g.getMax_idx = 0) :
    ∀ j, j < MCHECK →
      (getMax_feed ops g (List.replicate j v)).getMax_idx = j ∧
      (0 < j → (getMax_feed ops g (List.replicate j v)).getMax_f = false) ∧
      (∀ i, i < j → (getMax_feed ops g (List.replicate j v)).getMax_farr i = v) := by
  intro j
  induction j with
  | zero => intro _; simp [getMax_feed, h0]
  | succ j ih =>
    intro hj
    have ihj := ih (by omega)
    rw [List.replicate_succ', getMax_feed_snoc]
    have hb := getMax_below ops v (getMax_feed ops g (List.replicate j v)) (by rw [ihj.1]; omega)
    refine ⟨by rw [hb.1, ihj.1], fun _ => hb.2.2.1, ?_⟩
    intro i hi
    by_cases e : i = j
    · have := hb.2.2.2.1
      rw [ihj.1] at this
      rw [e]; exact this
    · have hij : i < j := by omega
      have hpos : 0 < j := by omega
      rw [hb.2.2.2.2 (ihj.2.1 hpos) i (by rw [ihj.1]; exact e)]
      exact ihj.2.2 i hij

theorem getMax_feed_full (g : Globals F D) (v : F) (h0 : g.getMax_idx = 0) :
    (getMax_feed ops g (List.replicate MCHECK v)).getMax_idx = 0 ∧
    (getMax_feed ops g (List.replicate MCHECK v)).maxLevel = ops.toUInt8
      (ops.mul (if ops.lt ops.zero v then v else ops.zero) (ops.ofInt 100)) := by
  have hM : MCHECK = (MCHECK - 1) + 1 := by have := MCHECK_pos; omega
  have hw := getMax_feed_window ops g v h0 (MCHECK - 1) (by have := MCHECK_pos; omega)
  have e : List.replicate MCHECK v = List.replicate (MCHECK - 1) v ++ [v] := by
    rw [← List.replicate_succ', ← hM]
  rw [e, getMax_feed_snoc]
  apply getMax_wrap
  · rw [hw.1]; have := MCHECK_pos; omega
  · intro hpos; rw [hw.1] at hpos; exact hw.2.1 hpos
  · intro i hi; rw [hw.1] at hi; exact hw.2.2 i hi

/-- Claim C8, as amended.  From the initial state, feeding `MCHECK` samples all
equal to `v` leaves `maxLevel` at its initial value 0 during the first
`MCHECK - 1` calls and publishes on call `MCHECK` the value
`(uint8_t)(max * 100)`, where `max` is `v` when `0 < v` and `0` otherwise; the
following `MCHECK - 1` calls, whatever the samples, leave it unchanged. -/
theorem C8_level_meter (d0 : D) (v : F) (rest : List F) (hrest : rest.length ≤ MCHECK - 1) :
    (∀ j, j < MCHECK →
      (getMax_feed ops (initialGlobals ops d0) (List.replicate j v)).maxLevel = 0) ∧
    (getMax_feed ops (initialGlobals ops d0) (List.replicate MCHECK v)).maxLevel
      = ops.toUInt8 (ops.mul (if ops.lt ops.zero v then v else ops.zero) (ops.ofInt 100)) ∧
    (getMax_feed ops (getMax_feed ops (initialGlobals ops d0) (List.replicate MCHECK v))
        rest).maxLevel
      = ops.toUInt8 (ops.mul (if ops.lt ops.zero v then v else ops.zero) (ops.ofInt 100)) := by
  have hfull := getMax_feed_full ops (initialGlobals ops d0) v rfl
  refine ⟨?_, hfull.2, ?_⟩
  · intro j hj
    have := getMax_feed_quiet ops (List.replicate j v) (initialGlobals ops d0)
      (by simp [initialGlobals]; exact hj)
    rw [this.1]; rfl
  · have := getMax_feed_quiet ops rest
      (getMax_feed ops (initialGlobals ops d0) (List.replicate MCHECK v))
      (by rw [hfull.1]; have := MCHECK_pos; omega)
    rw [this.1, hfull.2]

/-- Witness of C8: the sample value `1/2`, followed by two other samples. -/
theorem C8_level_meter_witness :
    [(1 : ℚ), 2].length ≤ MCHECK - 1 ∧
    ((∀ j, j < MCHECK →
      (getMax_feed exactFloat (initialGlobals exactFloat (0 : Nat))
        (List.replicate j (1 / 2))).maxLevel = 0) ∧
    (getMax_feed exactFloat (initialGlobals exactFloat (0 : Nat))
        (List.replicate MCHECK (1 / 2))).maxLevel
      = exactFloat.toUInt8 (exactFloat.mul
          (if exactFloat.lt exactFloat.zero (1 / 2) then 1 / 2 else exactFloat.zero)
          (exactFloat.ofInt 100)) ∧
    (getMax_feed exactFloat (getMax_feed exactFloat (initialGlobals exactFloat (0 : Nat))
        (List.replicate MCHECK (1 / 2))) [1, 2]).maxLevel
      = exactFloat.toUInt8 (exactFloat.mul
          (if exactFloat.lt exactFloat.zero (1 / 2) then 1 / 2 else exactFloat.zero)
          (exactFloat.ofInt 100))) :=
  ⟨by decide, C8_level_meter exactFloat (0 : Nat) (1 / 2) [1, 2] (by decide)⟩

/-- Counterexample to C8 as stated: with exact arithmetic a window of samples
`3/16` publishes 18, while `round (v * 100)` is 19. -/
theorem C8_truncates_not_rounds :
    (getMax_feed exactFloat (initialGlobals exactFloat (0 : Nat))
        (List.replicate MCHECK (3 / 16))).maxLevel = 18 ∧
    round ((3 / 16 : ℚ) * 100) = 19 := by
  constructor
  · rw [(getMax_feed_full exactFloat (initialGlobals exactFloat (0 : Nat)) (3 / 16) rfl).2]
    have h1 : exactFloat.lt exactFloat.zero (3 / 16) = true := by
      simp [exactFloat]
    have h2 : exactFloat.mul (3 / 16) (exactFloat.ofInt 100) = 75 / 4 := by
      simp [exactFloat]; norm_num
    rw [h1, if_pos rfl, h2]
    have h3 : truncZ (75 / 4) = 18 := by
      have hn : (75 / 4 : ℚ).num = 75 := by norm_num
      have hd : (75 / 4 : ℚ).den = 4 := by norm_num
      simp [truncZ, hn, hd]
      decide
    simp [exactFloat, h3, toU8]
  · rw [round_eq]
    norm_num [Int.floor_eq_iff]
end LevelMeter

section InitModulator

variable {F D : Type} (ops : FloatOps F) (lib : Liquid F D)

theorem ensurePositiveTau_nonneg :
    ∀ (fuel : Nat) (t tau : F), ensurePositiveTau ops fuel t = some tau →
      ops.lt tau ops.zero = false := by
  intro fuel
  induction fuel with
  | zero =>
    intro t tau h
    by_cases hlt : ops.lt t ops.zero = true
    · simp [ensurePositiveTau, hlt] at h
    · simp only [ensurePositiveTau, hlt] at h
      simp only [Bool.false_eq_true, if_false, Option.some.injEq] at h
      rw [← h]; simpa using hlt
  | succ fuel ih =>
    intro t tau h
    by_cases hlt : ops.lt t ops.zero = true
    · simp only [ensurePositiveTau, hlt, if_true] at h
      exact ih _ _ h
    · simp only [ensurePositiveTau, hlt] at h
      simp only [Bool.false_eq_true, if_false, Option.some.injEq] at h
      rw [← h]; simpa using hlt

theorem ensurePositiveTau_of_nonneg (fuel : Nat) (t : F) (h : ops.lt t ops.zero = false) :
    ensurePositiveTau ops fuel t = some t := by
  cases fuel <;> simp [ensurePositiveTau, h]

/-- Claim C9, as amended.  Let the number of filter coefficients
`2 * k * 15 + 1`, computed in 32 bit unsigned arithmetic for the configured
factor `k`, be 4000 or more, and let the fractional symbol offset be not below
`-1`, that is, when it is negative one addition of `1.0f` makes it non-negative
(the offset the program holds is `-0.2f` at the start and `0.8f` after the first
initialisation).  Then `init_modulator` returns, for every fuel of at least one
additional test of its loop: it prints the diagnostic and does not create the
interpolator.  The state is changed by then: `close_dsp` has run, so the
interpolator handle and the handles of the pre-decimator, the resampler and the
synchronizer are `NULL`; `k_SampPerSymb` is `k`; and `tau_FracSymbOffset` has been
raised by 1 when it was negative, is unchanged otherwise, and is not negative. -/
theorem C9_init_modulator_abort (fuel : Nat) (cfg : Config F) (g0 : Globals F D)
    (hm : g0.m_filterDelay_Symbols = 15)
    (hk : 4000 ≤ (2 * toU32 cfg.txinterpolfactor * 15 + 1) % 4294967296)
    (hoff : ops.lt g0.tau_FracSymbOffset ops.zero = true →
      ops.lt (ops.add g0.tau_FracSymbOffset ops.one) ops.zero = false) :
    ∃ g, init_modulator ops lib (fuel + 1) cfg g0
        = some (g, [Event.printf Msg.init_TX_modulator,
            Event.printf (Msg.h_too_small
              ((2 * toU32 cfg.txinterpolfactor * 15 + 1) % 4294967296))]) ∧
      g.TX_interpolator = none ∧
      g.decim = none ∧ g.adecim = none ∧ g.symtrack = none ∧
      g.k_SampPerSymb = toU32 cfg.txinterpolfactor ∧
      g.tau_FracSymbOffset
        = (if ops.lt g0.tau_FracSymbOffset ops.zero = true
           then ops.add g0.tau_FracSymbOffset ops.one else g0.tau_FracSymbOffset) ∧
      ops.lt g.tau_FracSymbOffset ops.zero = false := by
  have htau : ensurePositiveTau ops (fuel + 1) g0.tau_FracSymbOffset
      = some (if ops.lt g0.tau_FracSymbOffset ops.zero = true
           then ops.add g0.tau_FracSymbOffset ops.one else g0.tau_FracSymbOffset) := by
    by_cases hneg : ops.lt g0.tau_FracSymbOffset ops.zero = true
    · simp only [ensurePositiveTau, hneg, if_true]
      exact ensurePositiveTau_of_nonneg ops fuel _ (hoff hneg)
    · simp only [ensurePositiveTau, hneg]
      simp
  have hnn := ensurePositiveTau_nonneg ops (fuel + 1) _ _ htau
  refine ⟨{ close_dsp g0 with
      k_SampPerSymb := toU32 cfg.txinterpolfactor
      mod := some (lib.modem_create (getMod cfg.bitsPerSymbol))
      upnco := some (lib.nco_crcf_set_frequency
        (lib.nco_crcf_set_phase lib.nco_crcf_create (ops.lit 0))
        (ops.div (ops.mul (ops.mul (ops.lit 2) ops.pi) (ops.ofInt 1500))
          (ops.ofInt cfg.caprate)))
      tau_FracSymbOffset := (if ops.lt g0.tau_FracSymbOffset ops.zero = true
           then ops.add g0.tau_FracSymbOffset ops.one else g0.tau_FracSymbOffset) }, ?_, ?_⟩
  · simp only [init_modulator, close_dsp, close_demodulator, close_modulator, htau, hm]
    rw [if_pos hk]
  · exact ⟨rfl, rfl, rfl, rfl, rfl, rfl, hnn⟩

/-- Witness of C9: the factor 134 on an open pipeline whose offset is the
negative value `-0.2`; one addition makes it `0.8`. -/
theorem C9_init_modulator_abort_witness :
    (exampleOpen 20).m_filterDelay_Symbols = 15 ∧
    4000 ≤ (2 * toU32 (exampleConfig 2 134 8).txinterpolfactor * 15 + 1) % 4294967296 ∧
    exactFloat.lt (exampleOpen 20).tau_FracSymbOffset exactFloat.zero = true ∧
    exactFloat.lt (exactFloat.add (exampleOpen 20).tau_FracSymbOffset exactFloat.one)
      exactFloat.zero = false ∧
    ∃ g, init_modulator exactFloat exampleLib (0 + 1) (exampleConfig 2 134 8) (exampleOpen 20)
        = some (g, [Event.printf Msg.init_TX_modulator,
            Event.printf (Msg.h_too_small
              ((2 * toU32 (exampleConfig 2 134 8).txinterpolfactor * 15 + 1) % 4294967296))]) ∧
      g.TX_interpolator = none ∧
      g.decim = none ∧ g.adecim = none ∧ g.symtrack = none ∧
      g.k_SampPerSymb = toU32 (exampleConfig 2 134 8).txinterpolfactor ∧
      g.tau_FracSymbOffset
        = (if exactFloat.lt (exampleOpen 20).tau_FracSymbOffset exactFloat.zero = true
           then exactFloat.add (exampleOpen 20).tau_FracSymbOffset exactFloat.one
           else (exampleOpen 20).tau_FracSymbOffset) ∧
      exactFloat.lt g.tau_FracSymbOffset exactFloat.zero = false :=
  ⟨rfl, by decide, by decide!, by decide!,
   C9_init_modulator_abort exactFloat exampleLib 0 (exampleConfig 2 134 8) (exampleOpen 20)
     rfl (by decide) (fun _ => by decide!)⟩

/-- Counterexample to C9 as stated: `init_modulator` with the factor 20 opens the
pipeline (interpolator created, `k_SampPerSymb = 20`); a second call with the
factor 134, for which `2 * 134 * 15 + 1 = 4021`, aborts and leaves the
interpolator handle `NULL` and `k_SampPerSymb = 134`. -/
theorem C9_abort_changes_state :
    4000 ≤ 2 * 134 * 15 + 1 ∧
    (init_modulator exactFloat exampleLib 1 (exampleConfig 2 20 8)
        (initialGlobals exactFloat 0)).map
      (fun r => (r.1.TX_interpolator, r.1.k_SampPerSymb, r.2))
      = some (some 20, 20,
          [Event.printf Msg.init_TX_modulator, Event.printf Msg.DSP_created]) ∧
    ((init_modulator exactFloat exampleLib 1 (exampleConfig 2 20 8)
        (initialGlobals exactFloat 0)).bind
      (fun r => init_modulator exactFloat exampleLib 1 (exampleConfig 2 134 8) r.1)).map
      (fun r => (r.1.TX_interpolator, r.1.k_SampPerSymb, r.2))
      = some (none, 134,
          [Event.printf Msg.init_TX_modulator, Event.printf (Msg.h_too_small 4021)]) := by
  refine ⟨by decide, by decide!, by decide!⟩

end InitModulator

section Transmit

variable {F D : Type} (ops : FloatOps F) (lib : Liquid F D)

theorem okPolls_cons (fs : Int) (rest : List Int) :
    okPolls (fs :: rest) = (if fs > 20000 then 1 else 0) + okPolls rest := by
  by_cases h : fs > 20000
  · simp [okPolls, List.filter_cons, h]; omega
  · simp [okPolls, List.filter_cons, h]

theorem writes_append (a b : List (Event F)) : writes (a ++ b) = writes a ++ writes b := by
  simp [writes, List.filterMap_append]

theorem waitForSpace_spec (polls : List Int) :
    writes (waitForSpace (F := F) polls).1 = [] ∧
    (∀ (i : Nat) (x : F), (waitForSpace (F := F) polls).1[i]? ≠ some (Event.io_pb_write_fifo x)) ∧
    ((waitForSpace (F := F) polls).2 = none → okPolls polls = 0) ∧
    (∀ rest, (waitForSpace (F := F) polls).2 = some rest →
      okPolls polls = okPolls rest + 1 ∧
      ∃ fs, fs > 20000 ∧ 0 < (waitForSpace (F := F) polls).1.length ∧
        (waitForSpace (F := F) polls).1[(waitForSpace (F := F) polls).1.length - 1]?
          = some (Event.io_pb_fifo_freespace fs)) := by
  induction polls with
  | nil => simp [waitForSpace, writes, okPolls]
  | cons fs rest ih =>
    by_cases h : fs > 20000
    · simp only [waitForSpace, h, if_true, okPolls_cons]
      refine ⟨by simp [writes], ?_, by simp, ?_⟩
      · intro i x
        cases i <;> simp
      · intro r hr
        simp only [Option.some.injEq] at hr
        subst hr
        exact ⟨by omega, fs, h, by simp, by simp⟩
    · obtain ⟨ih1, ih2, ih3, ih4⟩ := ih
      simp only [waitForSpace, h, if_false, okPolls_cons]
      refine ⟨?_, ?_, ?_, ?_⟩
      · simpa [writes] using ih1
      · intro i x
        match i with
        | 0 => simp
        | 1 => simp
        | i + 2 => simpa using ih2 i x
      · intro hn; simpa using ih3 hn
      · intro r hr
        obtain ⟨e, fs2, hfs, hpos, hlast⟩ := ih4 r hr
        refine ⟨by omega, fs2, hfs, by simp, ?_⟩
        have e2 : (Event.io_pb_fifo_freespace fs :: Event.sleep_ms (F := F) 10 ::
            (waitForSpace (F := F) rest).1).length - 1
            = ((waitForSpace (F := F) rest).1.length - 1) + 2 := by
          simp only [List.length_cons]; omega
        rw [e2]
        simpa using hlast

theorem PollBeforeWrite_append (ev tail : List (Event F)) (x : F) (fs : Int)
    (hnw : ∀ (i : Nat) (x : F), ev[i]? ≠ some (Event.io_pb_write_fifo x))
    (hpos : 0 < ev.length)
    (hlast : ev[ev.length - 1]? = some (Event.io_pb_fifo_freespace fs)) (hfs : fs > 20000)
    (ht : PollBeforeWrite tail) :
    PollBeforeWrite (ev ++ Event.io_pb_write_fifo x :: tail) := by
  intro i x2 hi
  rcases Nat.lt_trichotomy i ev.length with hlt | heq | hgt
  · rw [List.getElem?_append_left hlt] at hi
    exact absurd hi (hnw i x2)
  · subst heq
    refine ⟨hpos, fs, hfs, ?_⟩
    rw [List.getElem?_append_left (by omega)]
    exact hlast
  · rw [List.getElem?_append_right (by omega)] at hi
    obtain ⟨k, hk⟩ : ∃ k, i - ev.length = k + 1 := ⟨i - ev.length - 1, by omega⟩
    rw [hk, List.getElem?_cons_succ] at hi
    obtain ⟨hkpos, fs2, hfs2, hprev⟩ := ht k x2 hi
    refine ⟨by omega, fs2, hfs2, ?_⟩
    rw [List.getElem?_append_right (by omega)]
    have e : i - 1 - ev.length = (k - 1) + 1 := by omega
    rw [e, List.getElem?_cons_succ]
    exact hprev

theorem PollBeforeWrite_of_no_write (ev : List (Event F))
    (hnw : ∀ (i : Nat) (x : F), ev[i]? ≠ some (Event.io_pb_write_fifo x)) :
    PollBeforeWrite ev :=
  fun i x hi => absurd hi (hnw i x)

theorem modulator_loop_spec (y : List (liquid_float_complex F)) :
    ∀ (n i : Nat) (nco : D) (polls : List Int),
      PollBeforeWrite (modulator_loop ops lib y n i nco polls).2.1 ∧
      writes (modulator_loop ops lib y n i nco polls).2.1
        = (modulator_loop_samples ops lib y n i nco).take (okPolls polls) ∧
      ((modulator_loop ops lib y n i nco polls).2.2 = none → okPolls polls < n) ∧
      (∀ rest, (modulator_loop ops lib y n i nco polls).2.2 = some rest →
        okPolls polls = okPolls rest + n) := by
  intro n
  induction n with
  | zero =>
    intro i nco polls
    refine ⟨?_, ?_, ?_, ?_⟩
    · intro j x hj; simp [modulator_loop] at hj
    · simp [modulator_loop, modulator_loop_samples, writes]
    · simp [modulator_loop]
    · intro rest h; simp [modulator_loop] at h; simp [h]
  | succ n ih =>
    intro i nco polls
    obtain ⟨w1, w2, w3, w4⟩ := waitForSpace_spec (F := F) polls
    rcases hw : waitForSpace (F := F) polls with ⟨ev, _ | rest⟩
    · rw [hw] at w1 w2 w3
      have h0 := w3 rfl
      simp only [modulator_loop, hw]
      refine ⟨PollBeforeWrite_of_no_write ev w2, ?_, ?_, ?_⟩
      · rw [h0]; simpa using w1
      · intro _; omega
      · intro r hr; cases hr
    · rw [hw] at w1 w2 w4
      obtain ⟨hcount, fs, hfs, hpos, hlast⟩ := w4 rest rfl
      obtain ⟨i1, i2, i3, i4⟩ := ih (i + 1) (lib.nco_crcf_step nco) rest
      simp only [modulator_loop, hw]
      refine ⟨PollBeforeWrite_append ev _ _ fs w2 hpos hlast hfs i1, ?_, ?_, ?_⟩
      · rw [writes_append, w1, hcount]
        simp only [List.nil_append, modulator_loop_samples, List.take_succ_cons]
        have : writes (Event.io_pb_write_fifo
            (ops.mul (ops.add (lib.nco_crcf_mix_up (lib.nco_crcf_step nco)
              (y.getD i ⟨ops.zero, ops.zero⟩)).real (lib.nco_crcf_mix_up (lib.nco_crcf_step nco)
              (y.getD i ⟨ops.zero, ops.zero⟩)).imag) (ops.lit (1 / 5)))
            :: (modulator_loop ops lib y n (i + 1) (lib.nco_crcf_step nco) rest).2.1)
            = ops.mul (ops.add (lib.nco_crcf_mix_up (lib.nco_crcf_step nco)
              (y.getD i ⟨ops.zero, ops.zero⟩)).real (lib.nco_crcf_mix_up (lib.nco_crcf_step nco)
              (y.getD i ⟨ops.zero, ops.zero⟩)).imag) (ops.lit (1 / 5))
            :: writes (modulator_loop ops lib y n (i + 1) (lib.nco_crcf_step nco) rest).2.1 := by
          simp [writes]
        rw [this, i2]
      · intro hn
        have := i3 hn
        omega
      · intro r hr
        have := i4 r hr
        omega

theorem modulator_loop_samples_length (y : List (liquid_float_complex F)) :
    ∀ (n i : Nat) (nco : D), (modulator_loop_samples ops lib y n i nco).length = n := by
  intro n
  induction n with
  | zero => intro i nco; rfl
  | succ n ih => intro i nco; simp [modulator_loop_samples, ih]

theorem modulator_loop_samples_eq (y : List (liquid_float_complex F)) :
    ∀ (n i : Nat) (nco : D), modulator_loop_samples ops lib y n i nco
      = (List.range n).map (fun j =>
          ops.mul (ops.add
            (lib.nco_crcf_mix_up (lib.nco_crcf_step^[j + 1] nco)
              (y.getD (i + j) ⟨ops.zero, ops.zero⟩)).real
            (lib.nco_crcf_mix_up (lib.nco_crcf_step^[j + 1] nco)
              (y.getD (i + j) ⟨ops.zero, ops.zero⟩)).imag) (ops.lit (1 / 5))) := by
  intro n
  induction n with
  | zero => intro i nco; rfl
  | succ n ih =>
    intro i nco
    rw [modulator_loop_samples, ih, List.range_succ_eq_map, List.map_cons, List.map_map]
    congr 1
    apply List.map_congr_left
    intro j _
    simp only [Function.comp, Nat.succ_eq_add_one, Function.iterate_succ_apply]
    have e : i + 1 + j = i + (j + 1) := by omega
    rw [e]

theorem modulator_open (g : Globals F D) (sym_in : Nat) (polls : List Int) (m it nco : D)
    (hm : g.mod = some m) (hi : g.TX_interpolator = some it) (hn : g.upnco = some nco)
    (hk : g.k_SampPerSymb < 400) :
    (modulator ops lib g sym_in polls).events
      = (modulator_loop ops lib (lib.firinterp_crcf_execute it (lib.modem_modulate m sym_in).2).2
          g.k_SampPerSymb 0 nco polls).2.1 ∧
    ((modulator_loop ops lib (lib.firinterp_crcf_execute it (lib.modem_modulate m sym_in).2).2
          g.k_SampPerSymb 0 nco polls).2.2 = none →
      (modulator ops lib g sym_in polls).status = Status.blocked) ∧
    (∀ rest, (modulator_loop ops lib
          (lib.firinterp_crcf_execute it (lib.modem_modulate m sym_in).2).2
          g.k_SampPerSymb 0 nco polls).2.2 = some rest →
      (modulator ops lib g sym_in polls).status = Status.returned ∧
      (modulator ops lib g sym_in polls).polls = rest) ∧
    (modulator ops lib g sym_in polls).g.k_SampPerSymb = g.k_SampPerSymb ∧
    (modulator ops lib g sym_in polls).g.mod ≠ none ∧
    (modulator ops lib g sym_in polls).g.upnco ≠ none ∧
    (modulator ops lib g sym_in polls).g.TX_interpolator ≠ none := by
  have hk2 : ¬ g.k_SampPerSymb ≥ 400 := by omega
  rcases hl : (modulator_loop ops lib
      (lib.firinterp_crcf_execute it (lib.modem_modulate m sym_in).2).2
      g.k_SampPerSymb 0 nco polls).2.2 with _ | rest
  · simp [modulator, hm, hi, hn, hk2, hl]
  · simp [modulator, hm, hi, hn, hk2, hl]

theorem modulator_samples_open (g : Globals F D) (sym_in : Nat) (m it nco : D)
    (hm : g.mod = some m) (hi : g.TX_interpolator = some it) (hn : g.upnco = some nco) :
    modulator_samples ops lib g sym_in
      = modulator_loop_samples ops lib
          (lib.firinterp_crcf_execute it (lib.modem_modulate m sym_in).2).2
          g.k_SampPerSymb 0 nco := by
  rw [modulator_loop_samples_eq]
  simp [modulator_samples, hm, hi, hn]

theorem no_write_after_low_poll (evs : List (Event F)) (h : PollBeforeWrite evs)
    (i j : Nat) (fs : Int) (hi : evs[i]? = some (Event.io_pb_fifo_freespace fs))
    (hfs : fs ≤ 20000) (hij : i < j)
    (hnp : ∀ m, i < m → m < j → ∀ fs2 : Int, evs[m]? ≠ some (Event.io_pb_fifo_freespace fs2))
    (x : F) : evs[j]? ≠ some (Event.io_pb_write_fifo x) := by
  intro hj
  obtain ⟨_, fs2, hfs2, hprev⟩ := h j x hj
  rcases Nat.lt_or_ge i (j - 1) with hlt | hge
  · exact hnp (j - 1) hlt (by omega) fs2 hprev
  · have e : j - 1 = i := by omega
    rw [e, hi] at hprev
    have : fs = fs2 := by simpa using hprev
    omega

theorem modulator_no_write_unless_open (g : Globals F D) (sym_in : Nat) (polls : List Int)
    (h : ¬ ((g.mod ≠ none ∧ g.upnco ≠ none ∧ g.TX_interpolator ≠ none) ∧
      g.k_SampPerSymb < 400)) :
    ∀ (i : Nat) (x : F),
      (modulator ops lib g sym_in polls).events[i]? ≠ some (Event.io_pb_write_fifo x) := by
  intro i x
  unfold modulator
  rcases hm : g.mod with _ | m
  · simp
  · by_cases hk : g.k_SampPerSymb ≥ 400
    · simp only [hk, if_true]
      cases i <;> simp
    · rcases hi : g.TX_interpolator with _ | it
      · simp [hk, hi]
      · rcases hn : g.upnco with _ | nco
        · simp only [hk, hi, hn, if_false]
          split_ifs <;> simp
        · exfalso
          apply h
          refine ⟨⟨by simp [hm], by simp [hn], by simp [hi]⟩, by omega⟩

theorem writes_eq_nil_of_no_write (evs : List (Event F))
    (h : ∀ (i : Nat) (x : F), evs[i]? ≠ some (Event.io_pb_write_fifo x)) : writes evs = [] := by
  induction evs with
  | nil => rfl
  | cons e rest ih =>
    have hrest : writes rest = [] := ih (fun i x => by simpa using h (i + 1) x)
    cases e with
    | io_pb_write_fifo x => exact absurd (by simp) (h 0 x)
    | _ => simpa [writes] using hrest

theorem modulator_samples_closed (g : Globals F D) (sym_in : Nat)
    (h : ¬ (g.mod ≠ none ∧ g.upnco ≠ none ∧ g.TX_interpolator ≠ none)) :
    modulator_samples ops lib g sym_in = [] := by
  unfold modulator_samples
  rcases hm : g.mod with _ | m
  · rfl
  · rcases hi : g.TX_interpolator with _ | it
    · rfl
    · rcases hn : g.upnco with _ | nco
      · rfl
      · exfalso
        apply h
        exact ⟨by simp [hm], by simp [hn], by simp [hi]⟩

/-- Claim C5.  In a call of `modulator`, for every list of answers of
`io_pb_fifo_freespace`: every write comes right after a poll that returned more
than 20000; after a poll that returned 20000 or less no write happens before the
next poll; past the capacity guard (`k < 400`) the samples written are the first
`okPolls polls` of the samples of `modulator_samples`, in their order, so none is
skipped or written twice; and on an open pipeline these are `k` samples, all
written (and the call returns) when `k` answers are above the threshold. -/
theorem C5_backpressure (g : Globals F D) (sym_in : Nat) (polls : List Int) :
    (∀ (i : Nat) (x : F),
      (modulator ops lib g sym_in polls).events[i]? = some (Event.io_pb_write_fifo x) →
      0 < i ∧ ∃ fs : Int, fs > 20000 ∧
        (modulator ops lib g sym_in polls).events[i - 1]?
          = some (Event.io_pb_fifo_freespace fs)) ∧
    (∀ (i j : Nat) (fs : Int),
      (modulator ops lib g sym_in polls).events[i]? = some (Event.io_pb_fifo_freespace fs) →
      fs ≤ 20000 → i < j →
      (∀ m, i < m → m < j → ∀ fs2 : Int,
        (modulator ops lib g sym_in polls).events[m]?
          ≠ some (Event.io_pb_fifo_freespace fs2)) →
      ∀ x : F, (modulator ops lib g sym_in polls).events[j]?
        ≠ some (Event.io_pb_write_fifo x)) ∧
    (g.k_SampPerSymb < 400 →
      writes (modulator ops lib g sym_in polls).events
        = (modulator_samples ops lib g sym_in).take (okPolls polls)) ∧
    ((g.mod ≠ none ∧ g.upnco ≠ none ∧ g.TX_interpolator ≠ none) → g.k_SampPerSymb < 400 →
      (modulator_samples ops lib g sym_in).length = g.k_SampPerSymb ∧
      (g.k_SampPerSymb ≤ okPolls polls →
        (modulator ops lib g sym_in polls).status = Status.returned ∧
        writes (modulator ops lib g sym_in polls).events
          = modulator_samples ops lib g sym_in)) := by
  have hopen_case : (g.mod ≠ none ∧ g.upnco ≠ none ∧ g.TX_interpolator ≠ none) →
      g.k_SampPerSymb < 400 →
      PollBeforeWrite (modulator ops lib g sym_in polls).events ∧
      (modulator_samples ops lib g sym_in).length = g.k_SampPerSymb ∧
      writes (modulator ops lib g sym_in polls).events
        = (modulator_samples ops lib g sym_in).take (okPolls polls) ∧
      (g.k_SampPerSymb ≤ okPolls polls →
        (modulator ops lib g sym_in polls).status = Status.returned) := by
    intro hopen hk
    obtain ⟨h1, h2, h3⟩ := hopen
    obtain ⟨m, hm⟩ := Option.ne_none_iff_exists'.mp h1
    obtain ⟨nco, hn⟩ := Option.ne_none_iff_exists'.mp h2
    obtain ⟨it, hi⟩ := Option.ne_none_iff_exists'.mp h3
    obtain ⟨e1, e2, e3, _⟩ := modulator_open ops lib g sym_in polls m it nco hm hi hn hk
    obtain ⟨l1, l2, l3, l4⟩ := modulator_loop_spec ops lib
      (lib.firinterp_crcf_execute it (lib.modem_modulate m sym_in).2).2 g.k_SampPerSymb 0 nco
      polls
    have hs := modulator_samples_open ops lib g sym_in m it nco hm hi hn
    have hlen : (modulator_samples ops lib g sym_in).length = g.k_SampPerSymb := by
      rw [hs, modulator_loop_samples_length]
    rw [← e1] at l1 l2
    rw [← hs] at l2
    refine ⟨l1, hlen, l2, ?_⟩
    intro hle
    rcases hl : (modulator_loop ops lib
        (lib.firinterp_crcf_execute it (lib.modem_modulate m sym_in).2).2
        g.k_SampPerSymb 0 nco polls).2.2 with _ | rest
    · have := l3 hl; omega
    · exact (e3 rest hl).1
  have hpbw : PollBeforeWrite (modulator ops lib g sym_in polls).events := by
    by_cases hc : (g.mod ≠ none ∧ g.upnco ≠ none ∧ g.TX_interpolator ≠ none) ∧
        g.k_SampPerSymb < 400
    · exact (hopen_case hc.1 hc.2).1
    · exact PollBeforeWrite_of_no_write _
        (modulator_no_write_unless_open ops lib g sym_in polls hc)
  refine ⟨hpbw, ?_, ?_, ?_⟩
  · intro i j fs hi2 hfs hij hnp x
    exact no_write_after_low_poll _ hpbw i j fs hi2 hfs hij hnp x
  · intro hk
    by_cases ho : g.mod ≠ none ∧ g.upnco ≠ none ∧ g.TX_interpolator ≠ none
    · exact (hopen_case ho hk).2.2.1
    · rw [modulator_samples_closed ops lib g sym_in ho, List.take_nil]
      exact writes_eq_nil_of_no_write _
        (modulator_no_write_unless_open ops lib g sym_in polls (fun hc => ho hc.1))
  · intro ho hk
    obtain ⟨_, c2, c3, c4⟩ := hopen_case ho hk
    refine ⟨c2, fun hle => ⟨c4 hle, ?_⟩⟩
    rw [c3, List.take_of_length_le (by omega)]

/-- Witness of C5: three samples, the playback buffer is short of space on
three of the six polls. -/
theorem C5_backpressure_witness :
    ((exampleOpen 3).mod ≠ none ∧ (exampleOpen 3).upnco ≠ none ∧
      (exampleOpen 3).TX_interpolator ≠ none) ∧
    (exampleOpen 3).k_SampPerSymb < 400 ∧
    (exampleOpen 3).k_SampPerSymb ≤ okPolls [100, 20000, 20001, 30000, 5, 25000] ∧
    (modulator exactFloat exampleLib (exampleOpen 3) 2
        [100, 20000, 20001, 30000, 5, 25000]).status = Status.returned ∧
    writes (modulator exactFloat exampleLib (exampleOpen 3) 2
        [100, 20000, 20001, 30000, 5, 25000]).events
      = modulator_samples exactFloat exampleLib (exampleOpen 3) 2 :=
  ⟨by decide, by decide, by decide,
   ((C5_backpressure exactFloat exampleLib (exampleOpen 3) 2
      [100, 20000, 20001, 30000, 5, 25000]).2.2.2 (by decide) (by decide)).2 (by decide)⟩

end Transmit

section Send

variable {F D : Type} (ops : FloatOps F) (lib : Liquid F D)

theorem modulator_returns (g : Globals F D) (sym_in : Nat) (polls : List Int)
    (hopen : g.mod ≠ none ∧ g.upnco ≠ none ∧ g.TX_interpolator ≠ none)
    (hk : g.k_SampPerSymb < 400) (hp : g.k_SampPerSymb ≤ okPolls polls) :
    (modulator ops lib g sym_in polls).status = Status.returned ∧
    (writes (modulator ops lib g sym_in polls).events).length = g.k_SampPerSymb ∧
    okPolls polls = okPolls (modulator ops lib g sym_in polls).polls + g.k_SampPerSymb ∧
    ((modulator ops lib g sym_in polls).g.mod ≠ none ∧
      (modulator ops lib g sym_in polls).g.upnco ≠ none ∧
      (modulator ops lib g sym_in polls).g.TX_interpolator ≠ none) ∧
    (modulator ops lib g sym_in polls).g.k_SampPerSymb = g.k_SampPerSymb := by
  obtain ⟨h1, h2, h3⟩ := hopen
  obtain ⟨m, hm⟩ := Option.ne_none_iff_exists'.mp h1
  obtain ⟨nco, hn⟩ := Option.ne_none_iff_exists'.mp h2
  obtain ⟨it, hi⟩ := Option.ne_none_iff_exists'.mp h3
  obtain ⟨e1, e2, e3, e4, e5, e6, e7⟩ :=
    modulator_open ops lib g sym_in polls m it nco hm hi hn hk
  obtain ⟨l1, l2, l3, l4⟩ := modulator_loop_spec ops lib
    (lib.firinterp_crcf_execute it (lib.modem_modulate m sym_in).2).2 g.k_SampPerSymb 0 nco polls
  rcases hl : (modulator_loop ops lib
      (lib.firinterp_crcf_execute it (lib.modem_modulate m sym_in).2).2
      g.k_SampPerSymb 0 nco polls).2.2 with _ | rest
  · have := l3 hl; omega
  · obtain ⟨s1, s2⟩ := e3 rest hl
    refine ⟨s1, ?_, ?_, ⟨e5, e6, e7⟩, e4⟩
    · rw [e1, l2, List.length_take, modulator_loop_samples_length]
      omega
    · rw [s2]; exact l4 rest hl

theorem sendToModulator_loop_spec (bitsPerSymbol : Int) (syms : Nat → Nat) (k : Nat)
    (hk : k < 400) :
    ∀ (n i : Nat) (g : Globals F D) (polls : List Int),
      (g.mod ≠ none ∧ g.upnco ≠ none ∧ g.TX_interpolator ≠ none) →
      g.k_SampPerSymb = k → n * k ≤ okPolls polls →
      (sendToModulator_loop ops lib bitsPerSymbol syms n i g polls).status = Status.returned ∧
      (sendToModulator_loop ops lib bitsPerSymbol syms n i g polls).calls.map Prod.fst
        = (List.range n).map (fun j => txGray bitsPerSymbol (syms (i + j) % 256)) ∧
      (∀ c ∈ (sendToModulator_loop ops lib bitsPerSymbol syms n i g polls).calls,
        (writes c.2).length = k) ∧
      (writes ((sendToModulator_loop ops lib bitsPerSymbol syms n i g polls).calls.map
        Prod.snd).flatten).length = n * k := by
  intro n
  induction n with
  | zero =>
    intro i g polls _ _ _
    simp [sendToModulator_loop, writes]
  | succ n ih =>
    intro i g polls hopen hgk hp
    have hk1 : g.k_SampPerSymb < 400 := by omega
    have hp1 : g.k_SampPerSymb ≤ okPolls polls := by
      rw [hgk]; have : (n + 1) * k = n * k + k := by ring
      omega
    obtain ⟨m1, m2, m3, m4, m5⟩ := modulator_returns ops lib g
      (txGray bitsPerSymbol (syms i % 256)) polls hopen hk1 hp1
    have hp2 : n * k ≤ okPolls (modulator ops lib g
        (txGray bitsPerSymbol (syms i % 256)) polls).polls := by
      have : (n + 1) * k = n * k + k := by ring
      omega
    obtain ⟨r1, r2, r3, r4⟩ := ih (i + 1) _ _ m4 (by rw [m5, hgk]) hp2
    simp only [sendToModulator_loop, m1]
    refine ⟨r1, ?_, ?_, ?_⟩
    · rw [List.map_cons, r2, List.range_succ_eq_map, List.map_cons, List.map_map]
      simp only [Nat.add_zero, List.cons.injEq, true_and]
      apply List.map_congr_left
      intro j _
      simp only [Function.comp, Nat.succ_eq_add_one]
      have e : i + 1 + j = i + (j + 1) := by omega
      rw [e]
    · intro c hc
      rcases List.mem_cons.mp hc with rfl | hc2
      · rw [← hgk]; exact m2
      · exact r3 c hc2
    · rw [List.map_cons, List.flatten_cons, writes_append, List.length_append, m2, r4, hgk]
      ring

/-- Claim C1.  With `bitsPerSymbol` 1, 2 or 3, the pipeline open, the symbol count
`n = len * 8 / bitsPerSymbol` below 10000, `k < 400`, and the playback buffer
reporting free space above the threshold at least `n * k` times, one call of
`sendToModulator` returns after calling `modulator` exactly `n` times, on the
symbols `syms[0] .. syms[n-1]` in this order (after the Gray step); each call
writes exactly `k` samples, `n * k` samples in total. -/
theorem C1_sendToModulator (mp : Mapper) (cfg : Config F) (g : Globals F D) (d : List Nat)
    (len : Int) (syms0 : Nat → Nat) (polls : List Int)
    (hb : cfg.bitsPerSymbol = 1 ∨ cfg.bitsPerSymbol = 2 ∨ cfg.bitsPerSymbol = 3)
    (hopen : g.mod ≠ none ∧ g.upnco ≠ none ∧ g.TX_interpolator ≠ none)
    (hlen : 0 ≤ len)
    (hn : len * 8 / cfg.bitsPerSymbol < 10000)
    (hk : g.k_SampPerSymb < 400)
    (hpolls : (len * 8 / cfg.bitsPerSymbol).toNat * g.k_SampPerSymb ≤ okPolls polls) :
    (sendToModulator ops lib mp cfg g d len syms0 polls).status = Status.returned ∧
    (sendToModulator ops lib mp cfg g d len syms0 polls).calls.map Prod.fst
      = (List.range (len * 8 / cfg.bitsPerSymbol).toNat).map (fun i =>
          txGray cfg.bitsPerSymbol
            (sendToModulator_syms mp cfg.bitsPerSymbol d len syms0 i % 256)) ∧
    (∀ c ∈ (sendToModulator ops lib mp cfg g d len syms0 polls).calls,
      (writes c.2).length = g.k_SampPerSymb) ∧
    (writes ((sendToModulator ops lib mp cfg g d len syms0 polls).calls.map
      Prod.snd).flatten).length
      = (len * 8 / cfg.bitsPerSymbol).toNat * g.k_SampPerSymb := by
  obtain ⟨nco, hnco⟩ := Option.ne_none_iff_exists'.mp hopen.2.1
  have hb0 : cfg.bitsPerSymbol ≠ 0 := by omega
  have hsym : toS32 (Int.tdiv (toS32 (len * 8)) cfg.bitsPerSymbol)
      = len * 8 / cfg.bitsPerSymbol := by
    have h1 : toS32 (len * 8) = len * 8 := by
      unfold toS32
      rcases hb with h | h | h <;> rw [h] at hn <;> omega
    rw [h1, Int.tdiv_eq_ediv (by omega) (by omega)]
    unfold toS32
    rcases hb with h | h | h <;> rw [h] at hn ⊢ <;> omega
  have hguard : ¬ (len * 8 / cfg.bitsPerSymbol ≥ 10000) := by omega
  have := sendToModulator_loop_spec ops lib cfg.bitsPerSymbol
    (sendToModulator_syms mp cfg.bitsPerSymbol d len syms0) g.k_SampPerSymb hk
    (len * 8 / cfg.bitsPerSymbol).toNat 0 g polls hopen rfl hpolls
  simp only [Nat.zero_add] at this
  simp only [sendToModulator, hnco, hb0, if_false, hsym, hguard]
  exact this

/-- Witness of C1: the byte `0x3C` with two bits per symbol and `k = 20`. -/
theorem C1_sendToModulator_witness :
    ((exampleConfig 2 20 8).bitsPerSymbol = 1 ∨ (exampleConfig 2 20 8).bitsPerSymbol = 2 ∨
      (exampleConfig 2 20 8).bitsPerSymbol = 3) ∧
    ((exampleOpen 20).mod ≠ none ∧ (exampleOpen 20).upnco ≠ none ∧
      (exampleOpen 20).TX_interpolator ≠ none) ∧
    (0 : Int) ≤ 1 ∧ (1 : Int) * 8 / (exampleConfig 2 20 8).bitsPerSymbol < 10000 ∧
    (exampleOpen 20).k_SampPerSymb < 400 ∧
    ((1 : Int) * 8 / (exampleConfig 2 20 8).bitsPerSymbol).toNat * (exampleOpen 20).k_SampPerSymb
      ≤ okPolls (List.replicate 80 20001) ∧
    ((sendToModulator exactFloat exampleLib exampleMapper (exampleConfig 2 20 8)
        (exampleOpen 20) [60] 1 (fun _ => 0) (List.replicate 80 20001)).status
      = Status.returned ∧
    (sendToModulator exactFloat exampleLib exampleMapper (exampleConfig 2 20 8)
        (exampleOpen 20) [60] 1 (fun _ => 0) (List.replicate 80 20001)).calls.map Prod.fst
      = (List.range ((1 : Int) * 8 / (exampleConfig 2 20 8).bitsPerSymbol).toNat).map (fun i =>
          txGray (exampleConfig 2 20 8).bitsPerSymbol
            (sendToModulator_syms exampleMapper (exampleConfig 2 20 8).bitsPerSymbol [60] 1
              (fun _ => 0) i % 256)) ∧
    (∀ c ∈ (sendToModulator exactFloat exampleLib exampleMapper (exampleConfig 2 20 8)
        (exampleOpen 20) [60] 1 (fun _ => 0) (List.replicate 80 20001)).calls,
      (writes c.2).length = (exampleOpen 20).k_SampPerSymb) ∧
    (writes ((sendToModulator exactFloat exampleLib exampleMapper (exampleConfig 2 20 8)
        (exampleOpen 20) [60] 1 (fun _ => 0) (List.replicate 80 20001)).calls.map
      Prod.snd).flatten).length
      = ((1 : Int) * 8 / (exampleConfig 2 20 8).bitsPerSymbol).toNat
          * (exampleOpen 20).k_SampPerSymb) ∧
    (List.range ((1 : Int) * 8 / (exampleConfig 2 20 8).bitsPerSymbol).toNat).map (fun i =>
        txGray (exampleConfig 2 20 8).bitsPerSymbol
          (sendToModulator_syms exampleMapper (exampleConfig 2 20 8).bitsPerSymbol [60] 1
            (fun _ => 0) i % 256)) = [0, 2, 2, 0] ∧
    ((1 : Int) * 8 / (exampleConfig 2 20 8).bitsPerSymbol).toNat
        * (exampleOpen 20).k_SampPerSymb = 80 :=
  ⟨by decide, by decide, by decide, by decide, by decide, by decide,
   C1_sendToModulator exactFloat exampleLib exampleMapper (exampleConfig 2 20 8)
     (exampleOpen 20) [60] 1 (fun _ => 0) (List.replicate 80 20001)
     (by decide) (by decide) (by decide) (by decide) (by decide) (by decide),
   by decide, by decide⟩

end Send

section Receive

variable {F D : Type} (ops : FloatOps F) (lib : Liquid F D)

theorem getMax_frame (fv : F) (g : Globals F D) :
    (getMax ops fv g).ccol = g.ccol ∧ (getMax ops fv g).ccol_idx = g.ccol_idx ∧
    (getMax ops fv g).const_re = g.const_re ∧ (getMax ops fv g).const_im = g.const_im ∧
    (getMax ops fv g).const_idx = g.const_idx ∧ (getMax ops fv g).dnnco = g.dnnco := by
  unfold getMax
  cases g.getMax_f <;> simp <;> split_ifs <;> simp

theorem constFrame_head (re im : Nat → Int) : (constFrame re im).head? = some 5 := rfl

theorem downmixed_append (a b : List (Event F)) :
    downmixed (a ++ b) = downmixed a ++ downmixed b := by
  simp [downmixed, List.filterMap_append]

theorem decimBlocks_append (a b : List (Event F)) :
    decimBlocks (a ++ b) = decimBlocks a ++ decimBlocks b := by
  simp [decimBlocks, List.filterMap_append]

theorem synchronizerRuns_append (a b : List (Event F)) :
    synchronizerRuns (a ++ b) = synchronizerRuns a ++ synchronizerRuns b := by
  simp [synchronizerRuns, List.filterMap_append]

theorem recovered_append (a b : List (Event F)) :
    recovered ops (a ++ b) = recovered ops a ++ recovered ops b := by
  simp [recovered, List.filterMap_append]

theorem delivered_append (a b : List (Event F)) :
    delivered (a ++ b) = delivered a ++ delivered b := by
  simp [delivered, List.filterMap_append]

theorem constFrames_append (a b : List (Event F)) :
    constFrames (a ++ b) = constFrames a ++ constFrames b := by
  simp [constFrames, sentFrames, List.filterMap_append]

theorem printf_quiet (c : Prop) [Decidable c] (m : Msg) :
    downmixed (if c then [Event.printf (F := F) m] else []) = [] ∧
    decimBlocks (if c then [Event.printf (F := F) m] else []) = [] ∧
    synchronizerRuns (if c then [Event.printf (F := F) m] else []) = [] ∧
    recovered ops (if c then [Event.printf (F := F) m] else []) = [] ∧
    delivered (if c then [Event.printf (F := F) m] else []) = [] ∧
    constFrames (if c then [Event.printf (F := F) m] else []) = [] := by
  by_cases h : c
  · simp only [if_pos h]
    exact ⟨rfl, rfl, rfl, rfl, rfl, rfl⟩
  · simp only [if_neg h]
    exact ⟨rfl, rfl, rfl, rfl, rfl, rfl⟩

theorem demodulator_constellation_spec (g g2 : Globals F D) (syms : liquid_float_complex F)
    (evs : List (Event F))
    (h : demodulator_constellation ops g syms = Except.ok (g2, evs)) :
    g2.ccol = g.ccol ∧ g2.ccol_idx = g.ccol_idx ∧
    downmixed evs = [] ∧ decimBlocks evs = [] ∧ synchronizerRuns evs = [] ∧
    recovered ops evs = [] ∧ delivered evs = [] ∧
    ConstStep g g2 [(ops.toInt16 (ops.mul syms.real (ops.lit 15000)),
                     ops.toInt16 (ops.mul syms.imag (ops.lit 15000)))] (constFrames evs) := by
  unfold demodulator_constellation at h
  by_cases h1 : g.const_idx ≥ CONSTPOINTS
  · simp [h1] at h
  · have h1' : g.const_idx < 400 := by simpa [CONSTPOINTS] using h1
    by_cases h2 : g.const_idx + 1 ≥ CONSTPOINTS
    · simp only [h1, h2, if_true, if_false, Except.ok.injEq, Prod.mk.injEq] at h
      obtain ⟨hg, he⟩ := h
      subst hg; subst he
      refine ⟨rfl, rfl, by simp [downmixed], by simp [decimBlocks], by simp [synchronizerRuns],
        by simp [recovered], by simp [delivered], ?_⟩
      right
      refine ⟨_, rfl, h1', rfl, rfl, ?_⟩
      right
      have h2' : g.const_idx + 1 = 400 := by simp only [CONSTPOINTS] at h2; omega
      refine ⟨h2', rfl, ?_⟩
      simp [constFrames, sentFrames, constFrame_head]
    · simp only [h1, h2, if_false, Except.ok.injEq, Prod.mk.injEq] at h
      obtain ⟨hg, he⟩ := h
      subst hg; subst he
      refine ⟨rfl, rfl, by simp [downmixed], by simp [decimBlocks], by simp [synchronizerRuns],
        by simp [recovered], by simp [delivered], ?_⟩
      right
      refine ⟨_, rfl, h1', rfl, rfl, ?_⟩
      left
      have h2' : g.const_idx + 1 < 400 := by simp only [CONSTPOINTS] at h2; omega
      exact ⟨h2', rfl, by simp [constFrames, sentFrames]⟩

theorem demodulator_symbols_spec (cfg : Config F) (g g2 : Globals F D) (out : SymtrackOut F)
    (y : liquid_float_complex F) (evs : List (Event F))
    (h : demodulator_symbols ops cfg g out = Except.ok (g2, evs)) :
    g2.ccol = g.ccol ∧ g2.ccol_idx = g.ccol_idx ∧
    downmixed evs = [] ∧ decimBlocks evs = [] ∧ synchronizerRuns evs = [] ∧
    recovered ops evs = [] ∧
    delivered evs = (if out.num_symbols_sync ≠ 0 then [rxGray cfg.bitsPerSymbol out.nsym_out]
                     else []) ∧
    ConstStep g g2 (recovered ops [Event.km_symtrack_execute y out]) (constFrames evs) := by
  unfold demodulator_symbols at h
  by_cases h0 : out.num_symbols_sync ≠ 0
  · rw [if_pos h0] at h
    rcases hc : demodulator_constellation ops g out.syms with e | ⟨g3, cev⟩
    · rw [hc] at h; cases h
    · rw [hc] at h
      simp only [Except.ok.injEq, Prod.mk.injEq] at h
      obtain ⟨hg, he⟩ := h
      subst hg; subst he
      obtain ⟨c1, c2, c3, c4, c5, c6, c7, c8⟩ :=
        demodulator_constellation_spec ops g g3 out.syms cev hc
      have hrec : recovered ops [Event.km_symtrack_execute y out]
          = [(ops.toInt16 (ops.mul out.syms.real (ops.lit 15000)),
              ops.toInt16 (ops.mul out.syms.imag (ops.lit 15000)))] := by
        simp [recovered, h0]
      obtain ⟨p1, p2, p3, p4, p5, p6⟩ := printf_quiet ops (F := F) (out.num_symbols_sync > 1)
        (Msg.symtrack_output_symbols out.num_symbols_sync)
      rw [hrec]
      refine ⟨c1, c2, ?_, ?_, ?_, ?_, ?_, ?_⟩
      · rw [downmixed_append, downmixed_append, p1, c3]; rfl
      · rw [decimBlocks_append, decimBlocks_append, p2, c4]; rfl
      · rw [synchronizerRuns_append, synchronizerRuns_append, p3, c5]; rfl
      · rw [recovered_append, recovered_append, p4, c6]; rfl
      · rw [delivered_append, delivered_append, p5, c7, if_pos h0]; rfl
      · rw [constFrames_append, constFrames_append, p6]
        exact c8
  · have h0' : out.num_symbols_sync = 0 := by simpa using h0
    have h1 : ¬ out.num_symbols_sync > 1 := by omega
    rw [if_neg h0, if_neg h1] at h
    simp only [Except.ok.injEq, Prod.mk.injEq] at h
    obtain ⟨hg, he⟩ := h
    subst hg; subst he
    refine ⟨rfl, rfl, by simp [downmixed], by simp [decimBlocks], by simp [synchronizerRuns],
      by simp [recovered], by simp [delivered, h0'], ?_⟩
    left
    refine ⟨?_, by simp [constFrames, sentFrames], rfl, rfl, rfl⟩
    simp only [recovered, List.filterMap_cons, List.filterMap_nil]
    rw [if_neg h0]

theorem demodulator_decimate_spec (cfg : Config F) (g g2 : Globals F D)
    (c : liquid_float_complex F) (ret : Int) (evs : List (Event F))
    (h : demodulator_decimate ops lib cfg g c = Except.ok (g2, ret, evs)) :
    ret = 1 ∧ downmixed evs = [] ∧
    AccStep cfg.rxPreInterpolfactor g g2 [c] (decimBlocks evs) (synchronizerRuns evs) ∧
    ConstStep g g2 (recovered ops evs) (constFrames evs) := by
  unfold demodulator_decimate at h
  by_cases h1 : g.ccol_idx ≥ 500
  · simp [h1] at h
  · have h1' : g.ccol_idx < 500 := by omega
    by_cases h2 : ((g.ccol_idx + 1 : Nat) : Int) < cfg.rxPreInterpolfactor
    · simp only [h1, h2, if_true, if_false, Except.ok.injEq, Prod.mk.injEq] at h
      obtain ⟨hg, hr, he⟩ := h
      subst hg; subst hr; subst he
      refine ⟨rfl, by simp [downmixed], ?_, ?_⟩
      · right
        refine ⟨c, rfl, h1', rfl, ?_⟩
        left
        exact ⟨by push_cast at h2; exact h2, rfl, by simp [decimBlocks],
          by simp [synchronizerRuns]⟩
      · left
        exact ⟨by simp [recovered], by simp [constFrames, sentFrames], rfl, rfl, rfl⟩
    · simp only [h1, h2, if_false] at h
      rcases hd : g.decim with _ | dc
      · simp [hd] at h
      · simp only [hd] at h
        rcases hs : demodulator_symbols ops cfg
            { g with ccol := arrSet g.ccol g.ccol_idx c, ccol_idx := 0,
                     decim := some (lib.firdecim_crcf_execute dc
                       (List.map (arrSet g.ccol g.ccol_idx c) (List.range 500))).1,
                     km_symtrack := (lib.km_symtrack_execute g.km_symtrack
                       (lib.firdecim_crcf_execute dc
                         (List.map (arrSet g.ccol g.ccol_idx c) (List.range 500))).2).1 }
            (lib.km_symtrack_execute g.km_symtrack
              (lib.firdecim_crcf_execute dc
                (List.map (arrSet g.ccol g.ccol_idx c) (List.range 500))).2).2
          with e | ⟨g3, sev⟩
        · simp [hs] at h
        · simp only [hs, Except.ok.injEq, Prod.mk.injEq] at h
          obtain ⟨hg, hr, he⟩ := h
          subst hg; subst hr; subst he
          obtain ⟨s1, s2, s3, s4, s5, s6, _, s8⟩ := demodulator_symbols_spec ops cfg _ g3 _
            (lib.firdecim_crcf_execute dc
              (List.map (arrSet g.ccol g.ccol_idx c) (List.range 500))).2 sev hs
          refine ⟨rfl, by simp [downmixed] at s3 ⊢; exact s3, ?_, ?_⟩
          · right
            refine ⟨c, rfl, h1', s1, ?_⟩
            right
            refine ⟨by push_cast at h2; exact h2, s2, ?_, ?_⟩
            · simp only [decimBlocks] at s4 ⊢
              simp [s4, s1]
            · simp only [synchronizerRuns] at s5 ⊢
              simp [s5]
          · have e1 : recovered ops (Event.firdecim_crcf_execute
                (List.map (arrSet g.ccol g.ccol_idx c) (List.range 500))
                :: Event.km_symtrack_execute (lib.firdecim_crcf_execute dc
                    (List.map (arrSet g.ccol g.ccol_idx c) (List.range 500))).2
                  (lib.km_symtrack_execute g.km_symtrack
                    (lib.firdecim_crcf_execute dc
                      (List.map (arrSet g.ccol g.ccol_idx c) (List.range 500))).2).2 :: sev)
                = recovered ops [Event.km_symtrack_execute (lib.firdecim_crcf_execute dc
                    (List.map (arrSet g.ccol g.ccol_idx c) (List.range 500))).2
                  (lib.km_symtrack_execute g.km_symtrack
                    (lib.firdecim_crcf_execute dc
                      (List.map (arrSet g.ccol g.ccol_idx c) (List.range 500))).2).2] := by
              simp only [recovered] at s6 ⊢
              simp only [List.filterMap_cons, s6]
              split <;> simp
            have e2 : constFrames (Event.firdecim_crcf_execute
                (List.map (arrSet g.ccol g.ccol_idx c) (List.range 500))
                :: Event.km_symtrack_execute (lib.firdecim_crcf_execute dc
                    (List.map (arrSet g.ccol g.ccol_idx c) (List.range 500))).2
                  (lib.km_symtrack_execute g.km_symtrack
                    (lib.firdecim_crcf_execute dc
                      (List.map (arrSet g.ccol g.ccol_idx c) (List.range 500))).2).2 :: sev)
                = constFrames sev := by
              simp [constFrames, sentFrames]
            rw [e1, e2]
            exact s8

theorem AccStep_congr (p : Int) (g gm g2 : Globals F D) (dm : List (liquid_float_complex F))
    (blocks : List (List (liquid_float_complex F))) (syncs : List (SymtrackOut F))
    (h1 : gm.ccol = g.ccol) (h2 : gm.ccol_idx = g.ccol_idx)
    (h : AccStep p gm g2 dm blocks syncs) : AccStep p g g2 dm blocks syncs := by
  unfold AccStep at h ⊢
  rw [h1, h2] at h
  exact h

theorem ConstStep_congr (g gm g2 : Globals F D) (pts : List (Int × Int))
    (frames : List (List Nat))
    (h1 : gm.const_re = g.const_re) (h2 : gm.const_im = g.const_im)
    (h3 : gm.const_idx = g.const_idx)
    (h : ConstStep gm g2 pts frames) : ConstStep g g2 pts frames := by
  unfold ConstStep at h ⊢
  rw [h1, h2, h3] at h
  exact h

theorem demodulator_downmix_spec (cfg : Config F) (g g2 : Globals F D) (nco : D) (f : F)
    (oc : Option (liquid_float_complex F))
    (h : demodulator_downmix ops lib cfg g nco f = Except.ok (g2, oc)) :
    g2.ccol = g.ccol ∧ g2.ccol_idx = g.ccol_idx ∧ g2.const_re = g.const_re ∧
    g2.const_im = g.const_im ∧ g2.const_idx = g.const_idx := by
  unfold demodulator_downmix at h
  by_cases hc : cfg.caprate = 44100 ∧ cfg.physcaprate = 48000
  · rw [if_pos hc] at h
    rcases ha : g.adecim with _ | a
    · simp [ha] at h
    · simp only [ha] at h
      rcases hr : (lib.msresamp_crcf_execute a ⟨f, ops.ofInt 0⟩).2 with _ | out
      · simp only [hr, Except.ok.injEq, Prod.mk.injEq] at h
        obtain ⟨hg, _⟩ := h
        subst hg
        exact ⟨rfl, rfl, rfl, rfl, rfl⟩
      · simp only [hr, Except.ok.injEq, Prod.mk.injEq] at h
        obtain ⟨hg, _⟩ := h
        subst hg
        exact ⟨rfl, rfl, rfl, rfl, rfl⟩
  · rw [if_neg hc] at h
    simp only [Except.ok.injEq, Prod.mk.injEq] at h
    obtain ⟨hg, _⟩ := h
    subst hg
    exact ⟨rfl, rfl, rfl, rfl, rfl⟩

theorem ls_write_quiet (c : Prop) [Decidable c] (x : F) :
    downmixed (if c then [Event.io_ls_write_fifo x] else []) = [] ∧
    decimBlocks (if c then [Event.io_ls_write_fifo x] else []) = [] ∧
    synchronizerRuns (if c then [Event.io_ls_write_fifo x] else []) = [] ∧
    recovered ops (if c then [Event.io_ls_write_fifo x] else []) = [] ∧
    delivered (if c then [Event.io_ls_write_fifo x] else []) = [] ∧
    constFrames (if c then [Event.io_ls_write_fifo x] else []) = [] := by
  by_cases h : c
  · simp only [if_pos h]
    exact ⟨rfl, rfl, rfl, rfl, rfl, rfl⟩
  · simp only [if_neg h]
    exact ⟨rfl, rfl, rfl, rfl, rfl, rfl⟩

theorem demodulator_spec (cfg : Config F) (env : Env F) (g g2 : Globals F D) (ret : Int)
    (evs : List (Event F))
    (h : demodulator ops lib cfg env g = Except.ok (g2, ret, evs)) :
    AccStep cfg.rxPreInterpolfactor g g2 (downmixed evs) (decimBlocks evs)
      (synchronizerRuns evs) ∧
    ConstStep g g2 (recovered ops evs) (constFrames evs) ∧
    (ret = 0 ∨ ret = 1) ∧
    (ret = 0 ↔ (g.dnnco = none ∨ env.io_cap_read_fifo = none)) := by
  unfold demodulator at h
  rcases hn : g.dnnco with _ | nco
  · simp only [hn, Except.ok.injEq, Prod.mk.injEq] at h
    obtain ⟨hg, hr, he⟩ := h
    subst hg; subst hr; subst he
    exact ⟨Or.inl ⟨rfl, rfl, rfl, rfl, rfl⟩, Or.inl ⟨rfl, rfl, rfl, rfl, rfl⟩, Or.inl rfl,
      by simp [hn]⟩
  · simp only [hn] at h
    rcases hf : env.io_cap_read_fifo with _ | f0
    · simp only [hf, Except.ok.injEq, Prod.mk.injEq] at h
      obtain ⟨hg, hr, he⟩ := h
      subst hg; subst hr; subst he
      exact ⟨Or.inl ⟨rfl, rfl, rfl, rfl, rfl⟩, Or.inl ⟨rfl, rfl, rfl, rfl, rfl⟩, Or.inl rfl,
        by simp⟩
    · simp only [hf] at h
      obtain ⟨m1, m2, m3, m4, m5, _⟩ := getMax_frame ops (ops.mul f0 cfg.softwareCAPvolume) g
      obtain ⟨q1, q2, q3, q4, q5, q6⟩ := ls_write_quiet ops (F := F)
        (cfg.VoiceAudioMode = cfg.VOICEMODE_LISTENAUDIOIN) f0
      rcases hfft : make_FFTdata env (ops.mul (ops.mul f0 cfg.softwareCAPvolume) (ops.ofInt 100))
          (getMax ops (ops.mul f0 cfg.softwareCAPvolume) g) with e | ev2
      · simp [hfft] at h
      · simp only [hfft] at h
        obtain ⟨f1, f2, f3, f4, f5, f6, _⟩ := make_FFTdata_events ops env _ _ ev2 hfft
        rcases hd : demodulator_downmix ops lib cfg
            (getMax ops (ops.mul f0 cfg.softwareCAPvolume) g) nco
            (ops.mul f0 cfg.softwareCAPvolume) with e | ⟨g3, _ | c⟩
        · simp [hd] at h
        · simp only [hd, Except.ok.injEq, Prod.mk.injEq] at h
          obtain ⟨hg, hr, he⟩ := h
          subst hg; subst hr; subst he
          obtain ⟨d1, d2, d3, d4, d5⟩ := demodulator_downmix_spec ops lib cfg _ _ _ _ _ hd
          refine ⟨Or.inl ⟨?_, ?_, ?_, by rw [d1, m1], by rw [d2, m2]⟩,
            Or.inl ⟨?_, ?_, by rw [d3, m3], by rw [d4, m4], by rw [d5, m5]⟩, Or.inr rfl, ?_⟩
          · rw [downmixed_append, q1, f1]; rfl
          · rw [decimBlocks_append, q2, f2]; rfl
          · rw [synchronizerRuns_append, q3, f3]; rfl
          · rw [recovered_append, q4, f4]; rfl
          · rw [constFrames_append, q6, f5]; rfl
          · simp
        · simp only [hd] at h
          obtain ⟨d1, d2, d3, d4, d5⟩ := demodulator_downmix_spec ops lib cfg _ _ _ _ _ hd
          rcases hdec : demodulator_decimate ops lib cfg g3 c with e | ⟨g4, r4, ev4⟩
          · simp [hdec] at h
          · simp only [hdec, Except.ok.injEq, Prod.mk.injEq] at h
            obtain ⟨hg, hr, he⟩ := h
            subst hg; subst hr; subst he
            obtain ⟨t1, t2, t3, t4⟩ := demodulator_decimate_spec ops lib cfg g3 g4 c r4 ev4 hdec
            have hcons : ∀ l : List (Event F), Event.nco_crcf_mix_down c :: l
                = [Event.nco_crcf_mix_down c] ++ l := fun l => rfl
            refine ⟨?_, ?_, Or.inr t1, ?_⟩
            · rw [hcons, downmixed_append, downmixed_append, downmixed_append,
                decimBlocks_append, decimBlocks_append, decimBlocks_append,
                synchronizerRuns_append, synchronizerRuns_append, synchronizerRuns_append,
                q1, q2, q3, f1, f2, f3, t2]
              apply AccStep_congr cfg.rxPreInterpolfactor g g3 g4 _ _ _ (by rw [d1, m1])
                (by rw [d2, m2])
              exact t3
            · rw [hcons, recovered_append, recovered_append, recovered_append,
                constFrames_append, constFrames_append, constFrames_append, q4, q6, f4, f5]
              apply ConstStep_congr g g3 g4 _ _ (by rw [d3, m3]) (by rw [d4, m4])
                (by rw [d5, m5])
              exact t4
            · rw [t1]; simp

end Receive

section Predecimation

variable {F D : Type} (ops : FloatOps F) (lib : Liquid F D)

theorem succ_mod (a p : Nat) : (a + 1) % p = (a % p + 1) % p := by
  conv_lhs => rw [← Nat.mod_add_div a p]
  rw [show a % p + p * (a / p) + 1 = (a % p + 1) + p * (a / p) by ring,
    Nat.add_mul_mod_self_left]

theorem AccStep_claim (p : Nat) (hp1 : 1 ≤ p) (hp2 : p ≤ 500) (g g2 : Globals F D)
    (cs0 dm : List (liquid_float_complex F)) (evs : List (Event F))
    (hdm : downmixed evs = dm)
    (hinv : InvAcc p g cs0)
    (hstep : AccStep (p : Int) g g2 dm (decimBlocks evs) (synchronizerRuns evs)) :
    InvAcc p g2 (cs0 ++ dm) ∧ AccClaim p (cs0 ++ dm) g g2 evs := by
  obtain ⟨hidx, hcol⟩ := hinv
  have hlt : cs0.length % p < p := Nat.mod_lt _ (by omega)
  rcases hstep with ⟨h1, h2, h3, h4, h5⟩ | ⟨c, h1, h2, h3, h4⟩
  · subst h1
    refine ⟨?_, ?_⟩
    · refine ⟨by simp [h5, hidx], ?_⟩
      intro i hi
      rw [h5] at hi
      simp only [List.append_nil]
      rw [h5, h4]
      exact hcol i hi
    · unfold AccClaim
      rw [hdm, h2, h3]
      simp [h5]
  · subst h1
    have hlen : (cs0 ++ [c]).length = cs0.length + 1 := by simp
    rcases h4 with ⟨k1, k2, k3, k4⟩ | ⟨k1, k2, k3, k4⟩
    · have hk : cs0.length % p + 1 < p := by rw [← hidx]; omega
      have hmod : (cs0.length + 1) % p = cs0.length % p + 1 := by
        rw [succ_mod, Nat.mod_eq_of_lt hk]
      have hnd : ¬ p ∣ (cs0 ++ [c]).length := by
        rw [hlen, Nat.dvd_iff_mod_eq_zero, hmod]; omega
      refine ⟨⟨by rw [k2, hlen, hmod, hidx], ?_⟩, ?_⟩
      · intro i hi
        rw [k2] at hi
        rw [k2, hlen, h3]
        have e : cs0.length + 1 - (g.ccol_idx + 1) + i = cs0.length - g.ccol_idx + i := by omega
        rw [e]
        have hle : g.ccol_idx ≤ cs0.length := by rw [hidx]; exact Nat.mod_le _ _
        by_cases hi2 : i = g.ccol_idx
        · subst hi2
          rw [List.getElem?_append_right (by omega)]
          have e2 : cs0.length - g.ccol_idx + g.ccol_idx - cs0.length = 0 := by omega
          rw [e2]
          simp [arrSet]
        · rw [List.getElem?_append_left (by omega)]
          simp only [arrSet, hi2, if_false]
          exact hcol i (by omega)
      · unfold AccClaim
        rw [hdm, k3, k4]
        have hnd2 : ¬ p ∣ cs0.length + 1 := by rw [← hlen]; exact hnd
        refine ⟨by simp, by simp [hnd2], by simp [hnd2], fun _ hd => absurd hd hnd, ?_, by simp⟩
        intro _ _
        rw [k2]
        omega
    · have hk : cs0.length % p + 1 = p := by rw [← hidx]; omega
      have hmod : (cs0.length + 1) % p = 0 := by
        rw [succ_mod, hk, Nat.mod_self]
      have hd : p ∣ (cs0 ++ [c]).length := by
        rw [hlen, Nat.dvd_iff_mod_eq_zero, hmod]
      have hge : p ≤ cs0.length + 1 := Nat.le_of_dvd (by omega) (by rw [← hlen]; exact hd)
      refine ⟨⟨by rw [k2, hlen, hmod], by intro i hi; rw [k2] at hi; omega⟩, ?_⟩
      unfold AccClaim
      rw [hdm, k3]
      have hs : synchronizerRuns evs ≠ [] := by
        intro h0; rw [h0] at k4; simp at k4
      have hd2 : p ∣ cs0.length + 1 := by rw [← hlen]; exact hd
      refine ⟨by simp, by simp [hd2], by simp [hd2, hs], ?_, fun _ hnd => absurd hd hnd, by simp⟩
      intro _ _
      refine ⟨_, rfl, ?_, k2⟩
      apply List.ext_getElem?
      intro i
      rw [List.getElem?_take, List.getElem?_drop, hlen, h3]
      by_cases hi : i < p
      · rw [if_pos hi, List.getElem?_map, List.getElem?_range (by omega)]
        simp only [Option.map_some']
        have hidx2 : g.ccol_idx = p - 1 := by omega
        by_cases hi2 : i = g.ccol_idx
        · rw [List.getElem?_append_right (by omega)]
          have e2 : cs0.length + 1 - p + i - cs0.length = 0 := by omega
          rw [e2]
          simp [arrSet, hi2]
        · rw [List.getElem?_append_left (by omega)]
          simp only [arrSet, hi2, if_false]
          have := hcol i (by omega)
          rw [← this]
          congr 1
          omega
      · rw [if_neg hi]
        symm
        rw [List.getElem?_eq_none_iff]
        simp only [List.length_append, List.length_singleton]
        omega

theorem runDemodulator_acc (cfg : Config F) (p : Nat) (hp1 : 1 ≤ p) (hp2 : p ≤ 500)
    (hcfg : cfg.rxPreInterpolfactor = (p : Int)) :
    ∀ (envs : List (Env F)) (g : Globals F D) (cs0 : List (liquid_float_complex F)),
      InvAcc p g cs0 →
      ∀ (j : Nat) (r : CallRec F D), (runDemodulator ops lib cfg g envs)[j]? = some r →
        AccClaim p
          (cs0 ++ (((runDemodulator ops lib cfg g envs).take (j + 1)).map
            (fun q => downmixed q.events)).flatten)
          r.pre r.post r.events := by
  intro envs
  induction envs with
  | nil => intro g cs0 _ j r hr; simp [runDemodulator] at hr
  | cons env rest ih =>
    intro g cs0 hinv j r hr
    rcases hdem : demodulator ops lib cfg env g with e | ⟨g2, ret, evs⟩
    · simp [runDemodulator, hdem] at hr
    · obtain ⟨s1, _, _, _⟩ := demodulator_spec ops lib cfg env g g2 ret evs hdem
      rw [hcfg] at s1
      obtain ⟨i1, i2⟩ := AccStep_claim p hp1 hp2 g g2 cs0 (downmixed evs) evs rfl hinv s1
      simp only [runDemodulator, hdem] at hr ⊢
      cases j with
      | zero =>
        simp only [List.getElem?_cons_zero, Option.some.injEq] at hr
        subst hr
        simpa using i2
      | succ j =>
        simp only [List.getElem?_cons_succ] at hr
        have := ih g2 (cs0 ++ downmixed evs) i1 j r hr
        simpa [List.append_assoc] using this

/-- Claim C2, as amended.  For `1 ≤ p ≤ 500` and every sequence of calls of
`demodulator` that starts with an empty accumulator, let `cs` be the down-mixed
samples delivered up to and including call `j`.  A call delivers at most one
sample; the pre-decimator and the synchronizer are run on call `j` if and only
if the call delivers a sample and `p` divides the length of `cs`; then the
first `p` entries of the block passed to the pre-decimator are the last `p`
elements of `cs` and the index is reset to 0; on a call that delivers a sample
with `p` not dividing the length of `cs` the index is in `1 .. p-1`; on a call
that delivers no sample the index is unchanged. -/
theorem C2_predecimation (cfg : Config F) (p : Nat) (hp1 : 1 ≤ p) (hp2 : p ≤ 500)
    (hcfg : cfg.rxPreInterpolfactor = (p : Int)) (g0 : Globals F D) (h0 : g0.ccol_idx = 0)
    (envs : List (Env F)) (j : Nat) (r : CallRec F D)
    (hr : (runDemodulator ops lib cfg g0 envs)[j]? = some r) :
    (downmixed r.events).length ≤ 1 ∧
    (decimBlocks r.events ≠ [] ↔ (downmixed r.events ≠ [] ∧
      p ∣ ((((runDemodulator ops lib cfg g0 envs).take (j + 1)).map
        (fun q => downmixed q.events)).flatten).length)) ∧
    (synchronizerRuns r.events ≠ [] ↔ (downmixed r.events ≠ [] ∧
      p ∣ ((((runDemodulator ops lib cfg g0 envs).take (j + 1)).map
        (fun q => downmixed q.events)).flatten).length)) ∧
    (downmixed r.events ≠ [] →
      p ∣ ((((runDemodulator ops lib cfg g0 envs).take (j + 1)).map
        (fun q => downmixed q.events)).flatten).length →
      ∃ block, decimBlocks r.events = [block] ∧
        block.take p = ((((runDemodulator ops lib cfg g0 envs).take (j + 1)).map
            (fun q => downmixed q.events)).flatten).drop
          (((((runDemodulator ops lib cfg g0 envs).take (j + 1)).map
            (fun q => downmixed q.events)).flatten).length - p) ∧
        r.post.ccol_idx = 0) ∧
    (downmixed r.events ≠ [] →
      ¬ p ∣ ((((runDemodulator ops lib cfg g0 envs).take (j + 1)).map
        (fun q => downmixed q.events)).flatten).length →
      1 ≤ r.post.ccol_idx ∧ r.post.ccol_idx ≤ p - 1) ∧
    (downmixed r.events = [] → r.post.ccol_idx = r.pre.ccol_idx) := by
  have hinv : InvAcc p g0 ([] : List (liquid_float_complex F)) := by
    refine ⟨by simp [h0], ?_⟩
    intro i hi; rw [h0] at hi; omega
  have := runDemodulator_acc ops lib cfg p hp1 hp2 hcfg envs g0 [] hinv j r hr
  simp only [List.nil_append] at this
  exact this

/-- Witness of C2: four calls with `p = 3`, the second finds no capture sample,
the fourth delivers the third down-mixed sample. -/
theorem C2_predecimation_witness :
    1 ≤ 3 ∧ 3 ≤ 500 ∧ (exampleConfig 2 20 3).rxPreInterpolfactor = ((3 : Nat) : Int) ∧
    (exampleOpen 20).ccol_idx = 0 ∧
    ∃ r, (runDemodulator exactFloat exampleLib (exampleConfig 2 20 3) (exampleOpen 20)
        [exampleEnv (some 1), exampleEnv none, exampleEnv (some 2), exampleEnv (some 3)])[3]?
        = some r ∧
      (decimBlocks r.events ≠ [] ↔ (downmixed r.events ≠ [] ∧
        3 ∣ ((((runDemodulator exactFloat exampleLib (exampleConfig 2 20 3) (exampleOpen 20)
          [exampleEnv (some 1), exampleEnv none, exampleEnv (some 2),
            exampleEnv (some 3)]).take (3 + 1)).map
          (fun q => downmixed q.events)).flatten).length)) := by
  refine ⟨by decide, by decide, rfl, rfl, ?_⟩
  rcases h : (runDemodulator exactFloat exampleLib (exampleConfig 2 20 3) (exampleOpen 20)
      [exampleEnv (some 1), exampleEnv none, exampleEnv (some 2), exampleEnv (some 3)])[3]?
    with _ | r
  · exfalso
    have hs : ((runDemodulator exactFloat exampleLib (exampleConfig 2 20 3) (exampleOpen 20)
        [exampleEnv (some 1), exampleEnv none, exampleEnv (some 2),
          exampleEnv (some 3)])[3]?).isSome = true := by decide!
    rw [h] at hs
    cases hs
  · exact ⟨r, rfl, (C2_predecimation exactFloat exampleLib (exampleConfig 2 20 3) 3 (by decide)
      (by decide) rfl (exampleOpen 20) rfl _ 3 r h).2.1⟩

/-- Counterexample to C2 as stated: with `p = 8`, a call that finds no capture
sample delivers no down-mixed sample and runs no synchronizer, and leaves the
accumulator index at 0, which is not in `1 .. 7`. -/
theorem C2_idle_call_keeps_index_zero :
    (runDemodulator exactFloat exampleLib (exampleConfig 2 20 8) (exampleOpen 20)
        [exampleEnv none]).map
      (fun r => ((downmixed r.events).length, (synchronizerRuns r.events).length,
        r.post.ccol_idx)) = [(0, 0, 0)] ∧
    ¬ (1 ≤ 0 ∧ 0 ≤ 8 - 1) := by
  refine ⟨by decide!, by decide⟩

end Predecimation

section ReturnValue

variable {F D : Type} (ops : FloatOps F) (lib : Liquid F D)

/-- Claim C4, as amended.  The value `demodulator` returns is 0 or 1: it is 0
exactly when the pipeline is closed (`dnnco` is `NULL`) or no capture sample was
available, and 1 exactly when a sample was consumed, whether or not a symbol was
recovered. -/
theorem C4_return_value (cfg : Config F) (env : Env F) (g g2 : Globals F D) (ret : Int)
    (evs : List (Event F))
    (h : demodulator ops lib cfg env g = Except.ok (g2, ret, evs)) :
    (ret = 0 ∨ ret = 1) ∧
    (ret = 0 ↔ (g.dnnco = none ∨ env.io_cap_read_fifo = none)) ∧
    (ret = 1 ↔ (g.dnnco ≠ none ∧ env.io_cap_read_fifo ≠ none)) := by
  obtain ⟨_, _, h3, h4⟩ := demodulator_spec ops lib cfg env g g2 ret evs h
  refine ⟨h3, h4, ?_⟩
  constructor
  · intro h1
    have : ¬ ret = 0 := by omega
    rw [h4] at this
    push_neg at this
    exact this
  · intro hc
    rcases h3 with h0 | h1
    · have := h4.mp h0
      rcases this with a | a
      · exact absurd a hc.1
      · exact absurd a hc.2
    · exact h1

/-- Witness of C4: a call on an open pipeline that finds a capture sample. -/
theorem C4_return_value_witness :
    ∃ g2 ret evs,
      demodulator exactFloat exampleLib (exampleConfig 2 20 1) (exampleEnv (some 2))
        (exampleOpen 20) = Except.ok (g2, ret, evs) ∧
      ((ret = 0 ∨ ret = 1) ∧
       (ret = 0 ↔ ((exampleOpen 20).dnnco = none ∨
          (exampleEnv (some 2)).io_cap_read_fifo = none)) ∧
       (ret = 1 ↔ ((exampleOpen 20).dnnco ≠ none ∧
          (exampleEnv (some 2)).io_cap_read_fifo ≠ none))) := by
  rcases h : demodulator exactFloat exampleLib (exampleConfig 2 20 1) (exampleEnv (some 2))
      (exampleOpen 20) with e | ⟨g2, ret, evs⟩
  · exfalso
    have hs : (demodulator exactFloat exampleLib (exampleConfig 2 20 1) (exampleEnv (some 2))
        (exampleOpen 20)).isOk = true := by decide!
    rw [h] at hs
    cases hs
  · exact ⟨g2, ret, evs, rfl,
      C4_return_value exactFloat exampleLib (exampleConfig 2 20 1) (exampleEnv (some 2))
        (exampleOpen 20) g2 ret evs h⟩

/-- Counterexample to C4 as stated: of five calls with `p = 1`, the first four
consume a sample; the third recovers no symbol and the fourth delivers the
symbol 3 to the framing layer, and both return 1.  The fifth finds no sample
and returns 0. -/
theorem C4_same_value_with_and_without_symbol :
    (runDemodulator exactFloat exampleLib (exampleConfig 2 20 1) (exampleOpen 20)
        [exampleEnv (some 2), exampleEnv (some 2), exampleEnv (some 2), exampleEnv (some 2),
          exampleEnv none]).map
      (fun r => (r.env.io_cap_read_fifo.isSome, delivered r.events, r.ret))
      = [(true, [], 1), (true, [], 1), (true, [], 1), (true, [3], 1), (false, [], 0)] := by
  decide!

end ReturnValue

section Constellation

variable {F D : Type} (ops : FloatOps F) (lib : Liquid F D)

theorem toU8_shift_eq_hiByte (v : Int) : toU8 (v >>> (8 : Nat)) = hiByte v := by
  have h : v >>> (8 : Nat) = v / 256 := by
    have := Int.shiftRight_eq_div_pow v 8
    simpa using this
  unfold toU8 hiByte
  rw [h]
  congr 1
  omega

theorem toU8_eq_loByte (v : Int) : toU8 v = loByte v := by
  unfold toU8 loByte
  congr 1
  omega

theorem constFrame_loop_length (re im : Nat → Int) :
    ∀ (n i : Nat), (constFrame_loop re im n i).length = 4 * n := by
  intro n
  induction n with
  | zero => intro i; rfl
  | succ n ih => intro i; simp [constFrame_loop, ih]; omega

theorem constFrame_loop_getElem (re im : Nat → Int) :
    ∀ (n i k : Nat), k < n →
      (constFrame_loop re im n i)[4 * k]? = some (hiByte (re (i + k))) ∧
      (constFrame_loop re im n i)[4 * k + 1]? = some (loByte (re (i + k))) ∧
      (constFrame_loop re im n i)[4 * k + 2]? = some (hiByte (im (i + k))) ∧
      (constFrame_loop re im n i)[4 * k + 3]? = some (loByte (im (i + k))) := by
  intro n
  induction n with
  | zero => intro i k hk; omega
  | succ n ih =>
    intro i k hk
    cases k with
    | zero =>
      simp only [constFrame_loop, toU8_shift_eq_hiByte]
      simp [toU8_eq_loByte]
    | succ k =>
      have := ih (i + 1) k (by omega)
      have e0 : 4 * (k + 1) = (4 * k) + 1 + 1 + 1 + 1 := by ring
      have e1 : 4 * (k + 1) + 1 = (4 * k + 1) + 1 + 1 + 1 + 1 := by ring
      have e2 : 4 * (k + 1) + 2 = (4 * k + 2) + 1 + 1 + 1 + 1 := by ring
      have e3 : 4 * (k + 1) + 3 = (4 * k + 3) + 1 + 1 + 1 + 1 := by ring
      have ei : i + (k + 1) = i + 1 + k := by ring
      simp only [constFrame_loop, e0, e1, e2, e3, ei, List.getElem?_cons_succ]
      exact this

theorem constFrame_spec (re im : Nat → Int) :
    (constFrame re im).length = 1601 ∧ (constFrame re im)[0]? = some 5 ∧
    ∀ i, i < 400 →
      (constFrame re im)[1 + 4 * i]? = some (hiByte (re i)) ∧
      (constFrame re im)[2 + 4 * i]? = some (loByte (re i)) ∧
      (constFrame re im)[3 + 4 * i]? = some (hiByte (im i)) ∧
      (constFrame re im)[4 + 4 * i]? = some (loByte (im i)) := by
  refine ⟨by simp [constFrame, constFrame_loop_length, CONSTPOINTS], by simp [constFrame], ?_⟩
  intro i hi
  have := constFrame_loop_getElem re im CONSTPOINTS 0 i (by simpa [CONSTPOINTS] using hi)
  simp only [Nat.zero_add] at this
  have e1 : 1 + 4 * i = (4 * i) + 1 := by ring
  have e2 : 2 + 4 * i = (4 * i + 1) + 1 := by ring
  have e3 : 3 + 4 * i = (4 * i + 2) + 1 := by ring
  have e4 : 4 + 4 * i = (4 * i + 3) + 1 := by ring
  simp only [constFrame, e1, e2, e3, e4, List.getElem?_cons_succ]
  exact this

theorem ConstStep_claim (g g2 : Globals F D) (pts0 : List (Int × Int)) (evs : List (Event F))
    (hinv : InvConst g pts0)
    (hstep : ConstStep g g2 (recovered ops evs) (constFrames evs)) :
    InvConst g2 (pts0 ++ recovered ops evs) ∧
    ConstClaim ops (pts0 ++ recovered ops evs) g2 evs := by
  obtain ⟨hidx, hcol⟩ := hinv
  rcases hstep with ⟨h1, h2, h3, h4, h5⟩ | ⟨pt, h1, h2, h3, h4, h6⟩
  · refine ⟨?_, ?_⟩
    · rw [h1]
      refine ⟨by simp [h5, hidx], ?_⟩
      intro i hi
      rw [h5] at hi
      simp only [List.append_nil]
      rw [h5, h3, h4]
      exact hcol i hi
    · unfold ConstClaim
      rw [h1, h2]
      simp
  · have hlen : (pts0 ++ [pt]).length = pts0.length + 1 := by simp
    have hle : g.const_idx ≤ pts0.length := by rw [hidx]; exact Nat.mod_le _ _
    have hent : ∀ i, i < g.const_idx + 1 →
        (pts0 ++ [pt])[pts0.length - g.const_idx + i]? = some (g2.const_re i, g2.const_im i) := by
      intro i hi
      rw [h3, h4]
      by_cases hi2 : i = g.const_idx
      · subst hi2
        rw [List.getElem?_append_right (by omega)]
        have e2 : pts0.length - g.const_idx + g.const_idx - pts0.length = 0 := by omega
        rw [e2]
        simp [arrSet]
      · rw [List.getElem?_append_left (by omega)]
        simp only [arrSet, hi2, if_false]
        exact hcol i (by omega)
    rcases h6 with ⟨k1, k2, k3⟩ | ⟨k1, k2, k3⟩
    · have hnd : ¬ 400 ∣ pts0.length + 1 := by omega
      refine ⟨?_, ?_⟩
      · rw [h1]
        refine ⟨by rw [k2, hlen]; omega, ?_⟩
        intro i hi
        rw [k2] at hi
        rw [k2, hlen]
        have e : pts0.length + 1 - (g.const_idx + 1) + i = pts0.length - g.const_idx + i := by
          omega
        rw [e]
        exact hent i hi
      · unfold ConstClaim
        rw [h1, k3]
        refine ⟨by simp, by simp [hnd], ?_⟩
        intro _ hd
        rw [hlen] at hd
        exact absurd hd hnd
    · have hd : 400 ∣ pts0.length + 1 := by omega
      refine ⟨?_, ?_⟩
      · rw [h1]
        refine ⟨by rw [k2, hlen]; omega, ?_⟩
        intro i hi
        rw [k2] at hi
        omega
      · unfold ConstClaim
        rw [h1, k3]
        refine ⟨by simp, by simp [hd], ?_⟩
        intro _ _
        obtain ⟨f1, f2, f3⟩ := constFrame_spec g2.const_re g2.const_im
        refine ⟨_, rfl, f1, f2, ?_, k2⟩
        intro i hi
        refine ⟨(g2.const_re i, g2.const_im i), ?_, f3 i hi⟩
        rw [hlen]
        have e : pts0.length + 1 - 400 + i = pts0.length - g.const_idx + i := by omega
        rw [e]
        exact hent i (by omega)

theorem runDemodulator_const (cfg : Config F) :
    ∀ (envs : List (Env F)) (g : Globals F D) (pts0 : List (Int × Int)),
      InvConst g pts0 →
      ∀ (j : Nat) (r : CallRec F D), (runDemodulator ops lib cfg g envs)[j]? = some r →
        ConstClaim ops
          (pts0 ++ (((runDemodulator ops lib cfg g envs).take (j + 1)).map
            (fun q => recovered ops q.events)).flatten)
          r.post r.events := by
  intro envs
  induction envs with
  | nil => intro g pts0 _ j r hr; simp [runDemodulator] at hr
  | cons env rest ih =>
    intro g pts0 hinv j r hr
    rcases hdem : demodulator ops lib cfg env g with e | ⟨g2, ret, evs⟩
    · simp [runDemodulator, hdem] at hr
    · obtain ⟨_, s2, _, _⟩ := demodulator_spec ops lib cfg env g g2 ret evs hdem
      obtain ⟨i1, i2⟩ := ConstStep_claim ops g g2 pts0 evs hinv s2
      simp only [runDemodulator, hdem] at hr ⊢
      cases j with
      | zero =>
        simp only [List.getElem?_cons_zero, Option.some.injEq] at hr
        subst hr
        simpa using i2
      | succ j =>
        simp only [List.getElem?_cons_succ] at hr
        have := ih g2 (pts0 ++ recovered ops evs) i1 j r hr
        simpa [List.append_assoc] using this

/-- Claim C6.  For every sequence of calls of `demodulator` that starts with an
empty constellation buffer, let `pts` be the points recovered up to and
including call `j`.  A call recovers at most one point, and it hands a
constellation frame to the transport if and only if it recovers a point and the
length of `pts` is a multiple of 400, that is, on the call that stores the 400th
point since the previous frame or since the start.  That frame has 1601 bytes,
byte 0 is 5, bytes `1+4i .. 4+4i` are the high and low byte of the real value
and the high and low byte of the imaginary value of the `i`-th of the last 400
points, and the point counter is 0 after the call. -/
theorem C6_constellation_frame (cfg : Config F) (g0 : Globals F D) (h0 : g0.const_idx = 0)
    (envs : List (Env F)) (j : Nat) (r : CallRec F D)
    (hr : (runDemodulator ops lib cfg g0 envs)[j]? = some r) :
    (recovered ops r.events).length ≤ 1 ∧
    (constFrames r.events ≠ [] ↔ (recovered ops r.events ≠ [] ∧
      400 ∣ ((((runDemodulator ops lib cfg g0 envs).take (j + 1)).map
        (fun q => recovered ops q.events)).flatten).length)) ∧
    (recovered ops r.events ≠ [] →
      400 ∣ ((((runDemodulator ops lib cfg g0 envs).take (j + 1)).map
        (fun q => recovered ops q.events)).flatten).length →
      ∃ frame, constFrames r.events = [frame] ∧ frame.length = 1601 ∧ frame[0]? = some 5 ∧
        (∀ i, i < 400 → ∃ pt,
          ((((runDemodulator ops lib cfg g0 envs).take (j + 1)).map
            (fun q => recovered ops q.events)).flatten)[
              ((((runDemodulator ops lib cfg g0 envs).take (j + 1)).map
                (fun q => recovered ops q.events)).flatten).length - 400 + i]? = some pt ∧
          frame[1 + 4 * i]? = some (hiByte pt.1) ∧ frame[2 + 4 * i]? = some (loByte pt.1) ∧
          frame[3 + 4 * i]? = some (hiByte pt.2) ∧ frame[4 + 4 * i]? = some (loByte pt.2)) ∧
        r.post.const_idx = 0) := by
  have hinv : InvConst g0 ([] : List (Int × Int)) := by
    refine ⟨by simp [h0], ?_⟩
    intro i hi; rw [h0] at hi; omega
  have := runDemodulator_const ops lib cfg envs g0 [] hinv j r hr
  simp only [List.nil_append] at this
  exact this

/-- Witness of C6: 400 calls with `p = 1` and a synchronizer that reports a
symbol on every call; call 400 stores the 400th point and sends the frame.  The
run is evaluated: the points recovered are `(i - 200, i - 200)` for
`i = 0 .. 399`, the frame sent is `exampleRampFrame`, which starts with
`5, 0xFF, 0x38, 0xFF, 0x38` (the point `-200`) and ends with `0, 199, 0, 199`,
and no call before the 400th sends a frame. -/
theorem C6_constellation_frame_witness :
    (exampleOpen 20).const_idx = 0 ∧
    ((runDemodulator exactFloat exampleLibDense (exampleConfig 2 20 1) (exampleOpen 20)
        (exampleRamp 400)).map (fun q => recovered exactFloat q.events)).flatten
      = (List.range 400).map (fun i => ((i : Int) - 200, (i : Int) - 200)) ∧
    (runDemodulator exactFloat exampleLibDense (exampleConfig 2 20 1) (exampleOpen 20)
        (exampleRamp 400)).map (fun q => (constFrames q.events).length)
      = List.replicate 399 0 ++ [1] ∧
    exampleRampFrame.take 5 = [5, 255, 56, 255, 56] ∧
    exampleRampFrame.drop 1597 = [0, 199, 0, 199] ∧
    ∃ r, (runDemodulator exactFloat exampleLibDense (exampleConfig 2 20 1) (exampleOpen 20)
        (exampleRamp 400))[399]? = some r ∧
      recovered exactFloat r.events ≠ [] ∧
      400 ∣ ((((runDemodulator exactFloat exampleLibDense (exampleConfig 2 20 1)
        (exampleOpen 20) (exampleRamp 400)).take (399 + 1)).map
          (fun q => recovered exactFloat q.events)).flatten).length ∧
      constFrames r.events = [exampleRampFrame] ∧
      ∃ frame, constFrames r.events = [frame] ∧ frame.length = 1601 ∧ frame[0]? = some 5 ∧
        (∀ i, i < 400 → ∃ pt,
          ((((runDemodulator exactFloat exampleLibDense (exampleConfig 2 20 1)
            (exampleOpen 20) (exampleRamp 400)).take (399 + 1)).map
              (fun q => recovered exactFloat q.events)).flatten)[
              ((((runDemodulator exactFloat exampleLibDense (exampleConfig 2 20 1)
                (exampleOpen 20) (exampleRamp 400)).take (399 + 1)).map
                  (fun q => recovered exactFloat q.events)).flatten).length - 400 + i]?
            = some pt ∧
          frame[1 + 4 * i]? = some (hiByte pt.1) ∧ frame[2 + 4 * i]? = some (loByte pt.1) ∧
          frame[3 + 4 * i]? = some (hiByte pt.2) ∧ frame[4 + 4 * i]? = some (loByte pt.2)) ∧
        r.post.const_idx = 0 := by
  refine ⟨rfl, by decide!, by decide!, by decide!, by decide!, ?_⟩
  have hlen : ((((runDemodulator exactFloat exampleLibDense (exampleConfig 2 20 1)
      (exampleOpen 20) (exampleRamp 400)).take (399 + 1)).map
        (fun q => recovered exactFloat q.events)).flatten).length = 400 := by decide!
  have hobs : ((runDemodulator exactFloat exampleLibDense (exampleConfig 2 20 1)
      (exampleOpen 20) (exampleRamp 400))[399]?).map
        (fun q => ((recovered exactFloat q.events).length, constFrames q.events))
      = some (1, [exampleRampFrame]) := by decide!
  rcases h : (runDemodulator exactFloat exampleLibDense (exampleConfig 2 20 1) (exampleOpen 20)
      (exampleRamp 400))[399]? with _ | r
  · rw [h] at hobs
    cases hobs
  · rw [h] at hobs
    simp only [Option.map_some', Option.some.injEq, Prod.mk.injEq] at hobs
    have hne : recovered exactFloat r.events ≠ [] := by
      intro h0
      rw [h0] at hobs
      exact absurd hobs.1 (by decide)
    have hdvd : 400 ∣ ((((runDemodulator exactFloat exampleLibDense (exampleConfig 2 20 1)
        (exampleOpen 20) (exampleRamp 400)).take (399 + 1)).map
          (fun q => recovered exactFloat q.events)).flatten).length := by
      rw [hlen]
    exact ⟨r, rfl, hne, hdvd, hobs.2,
      (C6_constellation_frame exactFloat exampleLibDense (exampleConfig 2 20 1)
        (exampleOpen 20) rfl (exampleRamp 400) 399 r h).2.2 hne hdvd⟩

end Constellation

end HSModem
